import Mathlib

/-!
# Verification of the ice PTP hardware layer (src/ice_ptp_hw.c)

This file gives a shallow embedding of the precision-time-protocol hardware
layer of the ice driver and proves the frozen claims about it.

Register I/O is modelled by a small state machine: every sideband (PHY / CGU)
transaction is numbered, and an oracle decides whether the n-th transaction
fails (transient transport errors) and which value an un-written register
reads as.  Successful writes are recorded in a register overlay so that later
reads observe them, and every access appends an event to a trace; the claims
about ordering, pulses and side effects are statements about that trace.

Machine integers are `Nat` with explicit `% 2^32` / `% 2^64` where the C code
can overflow; errno values are the negative `Int` constants of the source
(`-EINVAL = -22`, `-EBUSY = -16`, `-EIO = -5`, `-EOPNOTSUPP = -95`).

Constants that live in the driver's headers (register addresses, command
opcodes, bit masks, the Vernier constant tables) are not part of the two
source files; they are modelled from the spec as abstract fields of the `Hw`
structure (or as symbolic register names), never as invented numerals.
-/

set_option maxHeartbeats 1000000

namespace IcePtp

/-- Timer commands, `enum ice_ptp_tmr_cmd`. -/
inductive TmrCmd
  | initTime
  | initIncval
  | adjTime
  | adjTimeAtTime
  | readTime
  | nop
deriving DecidableEq, Repr

/-- PHY families, `enum ice_phy_model` (`hw->phy_model`). -/
inductive PhyModel
  | eth56g
  | e810
  | e822
  | unsup
deriving DecidableEq, Repr

/-- Symbolic names for the per-port PHY / quad registers touched by the
functions under verification.  The numeric addresses live in the driver
header, which is not part of the two source files; distinctness of the
symbols stands in for distinctness of the addresses. -/
inductive PhyReg
  | txTmrCmd            -- PHY_REG_TX_TMR_CMD / P_REG_TX_TMR_CMD
  | rxTmrCmd            -- PHY_REG_RX_TMR_CMD / P_REG_RX_TMR_CMD
  | ethGltsynCmd        -- E810_ETH_GLTSYN_CMD (shared external-PHY command reg)
  | timetusL            -- PHY_REG_TIMETUS_L / P_REG_TIMETUS_L (40b low)
  | timetusU            -- high part of the TIMETUS 40b pair
  | ethShadjL (idx : Nat)   -- ETH_GLTSYN_SHADJ_L(tmr_idx), E810
  | ethShadjH (idx : Nat)   -- ETH_GLTSYN_SHADJ_H(tmr_idx), E810
  | txTimerIncPreL      -- P_REG_TX_TIMER_INC_PRE_L
  | txTimerIncPreU      -- P_REG_TX_TIMER_INC_PRE_U
  | rxTimerIncPreL      -- P_REG_RX_TIMER_INC_PRE_L
  | rxTimerIncPreU      -- P_REG_RX_TIMER_INC_PRE_U
  | txCaptureL          -- P_REG_TX_CAPTURE_L
  | txCaptureU          -- P_REG_TX_CAPTURE_U
  | rxCaptureL          -- P_REG_RX_CAPTURE_L
  | rxCaptureU          -- P_REG_RX_CAPTURE_U
  | tstampLo (idx : Nat)    -- low half of timestamp slot idx (port/quad memory)
  | tstampHi (idx : Nat)    -- high half of timestamp slot idx
  | txOr                -- P_REG_TX_OR (Tx offset-ready flag)
  | rxOr                -- P_REG_RX_OR (Rx offset-ready flag)
  | txOvStatus          -- P_REG_TX_OV_STATUS (Tx offset-valid hardware bit)
  | rxOvStatus          -- P_REG_RX_OV_STATUS (Rx offset-valid hardware bit)
  | linkSpeed           -- P_REG_LINK_SPEED (serdes speed / FEC info)
  | parPcsTxOffsetL     -- P_REG_PAR_PCS_TX_OFFSET_L
  | parPcsTxOffsetU
  | parTxTimeL          -- P_REG_PAR_TX_TIME_L
  | parTxTimeU
  | parPcsRxOffsetL     -- P_REG_PAR_PCS_RX_OFFSET_L
  | parPcsRxOffsetU
  | parRxTimeL          -- P_REG_PAR_RX_TIME_L
  | parRxTimeU
  | totalTxOffsetL      -- P_REG_TOTAL_TX_OFFSET_L / PHY_REG_TOTAL_TX_OFFSET_L
  | totalTxOffsetU
  | totalRxOffsetL      -- P_REG_TOTAL_RX_OFFSET_L / PHY_REG_TOTAL_RX_OFFSET_L
  | totalRxOffsetU
  | txOffsetReady       -- PHY_REG_TX_OFFSET_READY (ETH56G)
  | rxOffsetReady       -- PHY_REG_RX_OFFSET_READY (ETH56G)
  | pmdAlignment        -- P_REG_PMD_ALIGNMENT
  | rx40to160Cnt        -- P_REG_RX_40_TO_160_CNT
  | rx80to160Cnt        -- P_REG_RX_80_TO_160_CNT
deriving DecidableEq, Repr

/-- Symbolic names for the PF-BAR registers written with `wr32`. -/
inductive MmioReg
  | gltsynCmd           -- GLTSYN_CMD
  | gltsynCmdSync       -- GLTSYN_CMD_SYNC (the execute pulse register)
  | shadjL (idx : Nat)  -- GLTSYN_SHADJ_L(tmr_idx)
  | shadjH (idx : Nat)  -- GLTSYN_SHADJ_H(tmr_idx)
deriving DecidableEq, Repr

/-- The CGU registers touched by `ice_cfg_cgu_pll_e822` / `_e825c`. -/
inductive CguReg
  | dw9                 -- NAC_CGU_DWORD9
  | dw19                -- NAC_CGU_DWORD19
  | dw22                -- NAC_CGU_DWORD22
  | dw23                -- NAC_CGU_DWORD23_E825C
  | dw24                -- NAC_CGU_DWORD24
  | bwmLf               -- TSPLL_RO_BWM_LF
  | roLock              -- TSPLL_RO_LOCK_E825C
deriving DecidableEq, Repr

/-- A CGU register value, represented at the bit-field level.  The C source
manipulates these registers through unions of named bit-fields whose packing
lives in the header; the packing is irrelevant to the claims, so the value is
modelled as the record of fields the source reads and writes. -/
structure CguWord where
  tsPllEnable : Bool := false          -- ts_pll_enable
  timeRefSel : Nat := 0                -- time_ref_sel
  timeRefFreqSel : Nat := 0            -- time_ref_freq_sel
  lockBit : Bool := false              -- plllock_true_lock_cri
  fbdivIntgr : Nat := 0                -- tspll_fbdiv_intgr
  ndivratio : Nat := 0                 -- tspll_ndivratio
  clkDiv : Nat := 0                    -- time1588clk_div
  clkSelDiv2 : Nat := 0                -- time1588clk_sel_div2
  refCkDiv : Nat := 0                  -- ref1588_ck_div
  fbdivFrac : Nat := 0                 -- tspll_fbdiv_frac
deriving DecidableEq, Repr

/-- Trace events: one per successful hardware mutation, plus read / sleep
markers.  MMIO (`wr32`) writes cannot fail; sideband writes are recorded only
when the transaction succeeds. -/
inductive Ev
  | rdPhy (port : Nat) (reg : PhyReg)
  | wrPhy (port : Nat) (reg : PhyReg) (val : Nat)
  | wrMmio (reg : MmioReg) (val : Nat)
  | rdCgu (reg : CguReg)
  | wrCgu (reg : CguReg) (w : CguWord)
  | rdSem                              -- read of PFTSYN_SEM
  | wrSem (val : Nat)                  -- write of PFTSYN_SEM (release)
  | sleepRange (lo hi : Nat)           -- usleep_range(lo, hi)
  | sleepMs (ms : Nat)                 -- msleep(ms)
deriving DecidableEq, Repr

/-- Link speeds, `enum ice_ptp_link_spd`. -/
inductive LinkSpd
  | s1G | s10G | s25G | s25GRS | s40G | s50G | s50GRS | s100GRS
deriving DecidableEq, Repr

/-- FEC modes, `enum ice_ptp_fec_mode`. -/
inductive FecMode
  | noFec | clause74 | rs
deriving DecidableEq, Repr

/-- Per-link-speed Vernier calibration constants (`struct
ice_vernier_info_e822`, table `e822_vernier` in the header; modelled from the
spec as abstract per-speed constants). -/
structure VernierInfo where
  txFixedDelay : Nat := 0
  rxFixedDelay : Nat := 0
  pmdAdjDivisor : Nat := 1
deriving Repr

/-- Divider constants of the CGU PLL parameter table `e822_cgu_params`
(header; modelled from the spec). -/
structure CguParams where
  feedbackDiv : Nat := 0
  fracNDiv : Nat := 0
  postPllDiv : Nat := 0
  refclkPreDiv : Nat := 0
deriving Repr

/-- The device context: the fields of `struct ice_hw` the verified functions
read, together with the environment oracles and the header constants.

Oracles: `sbFail n` decides whether the n-th sideband transaction of a run
fails (and with which errno); `phyInit`, `cguInit` give the power-on contents
of registers never yet written in the run; `semBusy k` is the value of the
semaphore busy bit at the k-th read of `PFTSYN_SEM`.

Header constants (`selPhySrc`, opcode tables, masks, Vernier tables …) are
modelled from the spec: the claims depend only on their existence, not their
numeric values. -/
structure Hw where
  phyModel : PhyModel
  tmrIdxOwned : Nat := 0          -- func_caps.ts_func_info.tmr_index_owned
  tmrIdxAssoc : Nat := 0          -- func_caps.ts_func_info.tmr_index_assoc
  phyPorts : Nat := 0             -- hw->phy_ports
  maxPhyPort : Nat := 0           -- hw->max_phy_port
  sbFail : Nat → Option Int := fun _ => none
  phyInit : Nat → PhyReg → Nat := fun _ _ => 0
  cguInit : CguReg → CguWord := fun _ => {}
  semBusy : Nat → Bool := fun _ => false
  shtime0 : Nat := 0              -- value read from GLTSYN_SHTIME_0(tmr_idx)
  shtimeL : Nat := 0              -- value read from GLTSYN_SHTIME_L(tmr_idx)
  incvalLo : Nat := 0             -- value read from GLTSYN_INCVAL_L(tmr_idx)
  incvalHi : Nat := 0             -- value read from GLTSYN_INCVAL_H(tmr_idx)
  pllFreq : Nat := 0              -- ice_e822_pll_freq(ice_e822_time_ref(hw))
  -- header constants, modelled from the spec:
  selCpkSrc : Nat := 0            -- SEL_CPK_SRC
  selPhySrc : Nat := 0            -- SEL_PHY_SRC
  syncExecCmd : Nat := 1          -- SYNC_EXEC_CMD
  tsCmdMask : Nat := 0            -- TS_CMD_MASK
  tsCmdMaskE810 : Nat := 0        -- TS_CMD_MASK_E810
  srcOpc : TmrCmd → Nat := fun _ => 0        -- GLTSYN_CMD_* source opcodes
  phyOpc : TmrCmd → Option Nat := fun _ => none  -- PHY_CMD_*; none ⇒ default: -EINVAL
  e810Opc : TmrCmd → Option Nat := fun _ => none -- GLTSYN_CMD_* for the E810 path
  txOvMask : Nat := 1             -- P_REG_TX_OV_STATUS_OV_M
  rxOvMask : Nat := 1             -- P_REG_RX_OV_STATUS_OV_M
  serdesMask : Nat := 0           -- P_REG_LINK_SPEED_SERDES_M
  fecOf : Nat → FecMode := fun _ => FecMode.noFec -- P_REG_LINK_SPEED_FEC_MODE(…)
  serdes1G : Nat := 0             -- ICE_PTP_SERDES_1G
  serdes10G : Nat := 0
  serdes25G : Nat := 0
  serdes40G : Nat := 0
  serdes50G : Nat := 0
  serdes100G : Nat := 0
  rxcycMask40 : Nat := 0          -- P_REG_RX_40_TO_160_CNT_RXCYC_M
  rxcycMask80 : Nat := 0          -- P_REG_RX_80_TO_160_CNT_RXCYC_M
  vernier : LinkSpd → VernierInfo := fun _ => {}  -- e822_vernier table
  cguParams : Nat → CguParams := fun _ => {}      -- e822_cgu_params table

/-- Machine state: event trace, register overlay of successful sideband
writes, the sideband transaction counter and the semaphore read counter. -/
structure S where
  tr : List Ev := []
  regs : Nat → PhyReg → Option Nat := fun _ _ => none
  cgu : CguReg → Option CguWord := fun _ => none
  n : Nat := 0
  k : Nat := 0

/-- The computation monad: state plus errno-typed early exit. -/
def M (α : Type) : Type := S → Except Int α × S

instance : Monad M where
  pure a := fun s => (Except.ok a, s)
  bind x f := fun s =>
    match x s with
    | (Except.ok a, s') => f a s'
    | (Except.error e, s') => (Except.error e, s')

instance {ε α : Type} [DecidableEq ε] [DecidableEq α] : DecidableEq (Except ε α)
  | Except.ok a, Except.ok b => decidable_of_iff (a = b) (by simp)
  | Except.error a, Except.error b => decidable_of_iff (a = b) (by simp)
  | Except.ok _, Except.error _ => isFalse (by simp)
  | Except.error _, Except.ok _ => isFalse (by simp)

/-- Run a computation on a state. -/
def runM {α : Type} (x : M α) (s : S) : Except Int α × S := x s

/-- Early error exit (`return -E...` in the C source). -/
def throwM {α : Type} (e : Int) : M α := fun s => (Except.error e, s)

/-- Capture a sub-computation's outcome instead of propagating it
(the C pattern `status = f(...);` followed by explicit checks). -/
def attempt {α : Type} (x : M α) : M (Except Int α) := fun s =>
  match x s with
  | (r, s') => (Except.ok r, s')

/-- Resume from a captured outcome (`return status`). -/
def liftE {α : Type} : Except Int α → M α
  | Except.ok a => pure a
  | Except.error e => throwM e

/-- Append an event to the trace. -/
def emit (e : Ev) : M Unit := fun s => (Except.ok (), { s with tr := s.tr ++ [e] })

/-- Current contents of a PHY register: the last successful write if any,
otherwise the power-on value supplied by the oracle. -/
def regVal (hw : Hw) (s : S) (port : Nat) (reg : PhyReg) : Nat :=
  (s.regs port reg).getD (hw.phyInit port reg)

/-- Sideband PHY register read (`ice_read_phy_reg_*`): numbered transaction,
may fail; emits a read event either way and returns the current register
contents on success. -/
def sbRead (hw : Hw) (port : Nat) (reg : PhyReg) : M Nat := fun s =>
  let s' : S := { s with tr := s.tr ++ [Ev.rdPhy port reg], n := s.n + 1 }
  match hw.sbFail s.n with
  | none => (Except.ok (regVal hw s port reg), s')
  | some e => (Except.error e, s')

/-- Sideband PHY register write (`ice_write_phy_reg_*`): on success the
register overlay is updated and a write event recorded. -/
def sbWrite (hw : Hw) (port : Nat) (reg : PhyReg) (val : Nat) : M Unit := fun s =>
  match hw.sbFail s.n with
  | none =>
      (Except.ok (),
        { s with
          tr := s.tr ++ [Ev.wrPhy port reg val]
          regs := fun p r => if p = port ∧ r = reg then some val else s.regs p r
          n := s.n + 1 })
  | some e => (Except.error e, { s with n := s.n + 1 })

/-- CGU register read over the sideband queue (`ice_read_cgu_reg_e82x`). -/
def cguRead (hw : Hw) (reg : CguReg) : M CguWord := fun s =>
  let s' : S := { s with tr := s.tr ++ [Ev.rdCgu reg], n := s.n + 1 }
  match hw.sbFail s.n with
  | none => (Except.ok ((s.cgu reg).getD (hw.cguInit reg)), s')
  | some e => (Except.error e, s')

/-- CGU register write over the sideband queue (`ice_write_cgu_reg_e82x`). -/
def cguWrite (hw : Hw) (reg : CguReg) (w : CguWord) : M Unit := fun s =>
  match hw.sbFail s.n with
  | none =>
      (Except.ok (),
        { s with
          tr := s.tr ++ [Ev.wrCgu reg w]
          cgu := fun r => if r = reg then some w else s.cgu r
          n := s.n + 1 })
  | some e => (Except.error e, { s with n := s.n + 1 })

/-- MMIO register write, `wr32` on the PF BAR: cannot fail. -/
def mmioWr (reg : MmioReg) (val : Nat) : M Unit := emit (Ev.wrMmio reg val)

/-- Read of the `PFTSYN_SEM` busy bit (`rd32`, cannot fail); the k-th read
observes `semBusy k`. -/
def semRd (hw : Hw) : M Bool := fun s =>
  (Except.ok (hw.semBusy s.k), { s with tr := s.tr ++ [Ev.rdSem], k := s.k + 1 })

/-- `usleep_range(lo, hi)`. -/
def sleepRangeM (lo hi : Nat) : M Unit := emit (Ev.sleepRange lo hi)

/-- `msleep(ms)`. -/
def msleepM (ms : Nat) : M Unit := emit (Ev.sleepMs ms)

/-- `lower_32_bits`. -/
def lo32 (v : Nat) : Nat := v % 2 ^ 32

/-- `upper_32_bits`. -/
def hi32 (v : Nat) : Nat := v / 2 ^ 32 % 2 ^ 32

/-- Truncation of an `Int` to unsigned 64-bit two's-complement
representation (C cast of `s64` to the register pair). -/
def u64ofInt (v : Int) : Nat := (v % 2 ^ 64).toNat

/-- Bitwise complement within u32 (`~mask` on a `u32`). -/
def compl32 (m : Nat) : Nat := m ^^^ (2 ^ 32 - 1)

/-! ## The timer command pipeline (C1, C2, C3) -/

/-- `ice_get_ptp_src_clock_index`: returns `tmr_index_assoc`. -/
def ice_get_ptp_src_clock_index (hw : Hw) : Nat := hw.tmrIdxAssoc

/-- `ice_ptp_src_cmd`: stage the source timer by writing `GLTSYN_CMD` with
the timer index shifted into the source-select field or-ed with the opcode of
the command (`ICE_PTP_NOP` contributes no opcode bits but still writes). -/
def ice_ptp_src_cmd (hw : Hw) (cmd : TmrCmd) : M Unit :=
  let cmd_val := ice_get_ptp_src_clock_index hw <<< hw.selCpkSrc ||| hw.srcOpc cmd
  mmioWr MmioReg.gltsynCmd cmd_val

/-- `ice_ptp_exec_tmr_cmd`: write the execute pulse (`SYNC_EXEC_CMD` into
`GLTSYN_CMD_SYNC`) which commits every staged shadow value.  The trailing
`ice_flush` is a posted-write read and is not an observable mutation. -/
def ice_ptp_exec_tmr_cmd (hw : Hw) : M Unit :=
  mmioWr MmioReg.gltsynCmdSync hw.syncExecCmd

/-- `ice_ptp_clean_cmd`: zero `GLTSYN_CMD` to avoid residual re-execution. -/
def ice_ptp_clean_cmd : M Unit := mmioWr MmioReg.gltsynCmd 0

/-- `ice_ptp_one_port_cmd_eth56g`: stage one ETH56G port for a timer command
by read-modify-writing `PHY_REG_TX_TMR_CMD` then `PHY_REG_RX_TMR_CMD`,
clearing only the `TS_CMD_MASK` bits; unknown commands (the `default` branch,
reached by `ICE_PTP_NOP`) return `-EINVAL` before any access. -/
def ice_ptp_one_port_cmd_eth56g (hw : Hw) (port : Nat) (cmd : TmrCmd)
    (_lock_sbq : Bool) : M Unit :=
  match hw.phyOpc cmd with
  | none => throwM (-22)
  | some opc => do
    let cmd_val := ice_get_ptp_src_clock_index hw <<< hw.selPhySrc ||| opc
    let v ← sbRead hw port PhyReg.txTmrCmd
    sbWrite hw port PhyReg.txTmrCmd (v &&& compl32 hw.tsCmdMask ||| cmd_val)
    let v2 ← sbRead hw port PhyReg.rxTmrCmd
    sbWrite hw port PhyReg.rxTmrCmd (v2 &&& compl32 hw.tsCmdMask ||| cmd_val)

/-- `ice_ptp_one_port_cmd_e822`: identical structure to the ETH56G variant,
on the `P_REG_TX_TMR_CMD` / `P_REG_RX_TMR_CMD` registers. -/
def ice_ptp_one_port_cmd_e822 (hw : Hw) (port : Nat) (cmd : TmrCmd)
    (_lock_sbq : Bool) : M Unit :=
  match hw.phyOpc cmd with
  | none => throwM (-22)
  | some opc => do
    let cmd_val := ice_get_ptp_src_clock_index hw <<< hw.selPhySrc ||| opc
    let v ← sbRead hw port PhyReg.txTmrCmd
    sbWrite hw port PhyReg.txTmrCmd (v &&& compl32 hw.tsCmdMask ||| cmd_val)
    let v2 ← sbRead hw port PhyReg.rxTmrCmd
    sbWrite hw port PhyReg.rxTmrCmd (v2 &&& compl32 hw.tsCmdMask ||| cmd_val)

/-- The C `for (port = start; port < start + n; port++)` staging loop shape
shared by the per-family "prepare all ports" functions: run `f` on `n`
consecutive ports starting at `start`, aborting at the first error. -/
def forPorts (f : Nat → M Unit) : Nat → Nat → M Unit
  | _, 0 => pure ()
  | start, n + 1 => do
    f start
    forPorts f (start + 1) n

/-- `ice_ptp_port_cmd_eth56g`: stage every port `0 ≤ port < max_phy_port`
in index order, propagating the first failure. -/
def ice_ptp_port_cmd_eth56g (hw : Hw) (cmd : TmrCmd) (lock_sbq : Bool) : M Unit :=
  forPorts (fun port => ice_ptp_one_port_cmd_eth56g hw port cmd lock_sbq) 0 hw.maxPhyPort

/-- `ice_ptp_port_cmd_e822`: stage every port `0 ≤ port < phy_ports` in index
order, propagating the first failure. -/
def ice_ptp_port_cmd_e822 (hw : Hw) (cmd : TmrCmd) (lock_sbq : Bool) : M Unit :=
  forPorts (fun port => ice_ptp_one_port_cmd_e822 hw port cmd lock_sbq) 0 hw.phyPorts

/-- `ice_ptp_port_cmd`: the shared E810 staging path; read-modify-write of the
single external `ETH_GLTSYN_CMD` register with the `TS_CMD_MASK_E810` mask;
unknown commands return `-EINVAL` before any access. -/
def ice_ptp_port_cmd_shared (hw : Hw) (cmd : TmrCmd) (_lock_sbq : Bool) : M Unit :=
  match hw.e810Opc cmd with
  | none => throwM (-22)
  | some cmd_val => do
    let v ← sbRead hw 0 PhyReg.ethGltsynCmd
    sbWrite hw 0 PhyReg.ethGltsynCmd (v &&& compl32 hw.tsCmdMaskE810 ||| cmd_val)

/-- `ice_ptp_port_cmd_e810`. -/
def ice_ptp_port_cmd_e810 (hw : Hw) (cmd : TmrCmd) (lock_sbq : Bool) : M Unit :=
  ice_ptp_port_cmd_shared hw cmd lock_sbq

/-- The `switch (hw->phy_model)` port-staging phase of `ice_ptp_tmr_cmd`. -/
def ice_ptp_tmr_cmd_ports (hw : Hw) (cmd : TmrCmd) (lock_sbq : Bool) : M Unit :=
  match hw.phyModel with
  | PhyModel.eth56g => ice_ptp_port_cmd_eth56g hw cmd lock_sbq
  | PhyModel.e810 => ice_ptp_port_cmd_e810 hw cmd lock_sbq
  | PhyModel.e822 => ice_ptp_port_cmd_e822 hw cmd lock_sbq
  | PhyModel.unsup => throwM (-95)

/-- `ice_ptp_tmr_cmd`: prepare the source timer, stage every PHY port,
then (only if all staging succeeded) write the execute pulse and clear the
command register. -/
def ice_ptp_tmr_cmd (hw : Hw) (cmd : TmrCmd) (lock_sbq : Bool) : M Unit := do
  ice_ptp_src_cmd hw cmd
  ice_ptp_tmr_cmd_ports hw cmd lock_sbq
  ice_ptp_exec_tmr_cmd hw
  ice_ptp_clean_cmd

/-- `ice_ptp_one_port_cmd` (the generic dispatcher): forwards to the
family-specific implementation — but passes the literal `ICE_PTP_READ_TIME`
and `true` instead of the caller-supplied `cmd` and `lock_sbq`. -/
def ice_ptp_one_port_cmd (hw : Hw) (port : Nat) (_cmd : TmrCmd)
    (_lock_sbq : Bool) : M Unit :=
  match hw.phyModel with
  | PhyModel.eth56g => ice_ptp_one_port_cmd_eth56g hw port TmrCmd.readTime true
  | PhyModel.e822 => ice_ptp_one_port_cmd_e822 hw port TmrCmd.readTime true
  | _ => throwM (-95)

/-! ## Trace reasoning infrastructure -/

/-- Events emitted by port-staging code: sideband PHY reads and writes. -/
def stagingEv : Ev → Bool
  | Ev.rdPhy _ _ => true
  | Ev.wrPhy _ _ _ => true
  | _ => false

/-- `EmitsOnly x P`: every event `x` appends to the trace satisfies `P`,
whatever the starting state and however `x` exits. -/
def EmitsOnly {α : Type} (x : M α) (P : Ev → Bool) : Prop :=
  ∀ s r s', x s = (r, s') → ∃ δ, s'.tr = s.tr ++ δ ∧ ∀ e ∈ δ, P e = true

theorem bind_def {α β : Type} (x : M α) (f : α → M β) (s : S) :
    (x >>= f) s =
      match x s with
      | (Except.ok a, s') => f a s'
      | (Except.error e, s') => (Except.error e, s') := rfl

theorem pure_def {α : Type} (a : α) (s : S) :
    (pure a : M α) s = (Except.ok a, s) := rfl

theorem emitsOnly_pure {α : Type} (a : α) (P : Ev → Bool) :
    EmitsOnly (pure a : M α) P := by
  intro s r s' h
  cases h
  exact ⟨[], by simp, by simp⟩

theorem emitsOnly_throwM {α : Type} (e : Int) (P : Ev → Bool) :
    EmitsOnly (throwM e : M α) P := by
  intro s r s' h
  cases h
  exact ⟨[], by simp, by simp⟩

theorem emitsOnly_bind {α β : Type} {x : M α} {f : α → M β} {P : Ev → Bool}
    (hx : EmitsOnly x P) (hf : ∀ a, EmitsOnly (f a) P) :
    EmitsOnly (x >>= f) P := by
  intro s r s' h
  rw [bind_def] at h
  rcases hx1 : x s with ⟨r1, s1⟩
  rw [hx1] at h
  cases r1 with
  | ok a =>
      obtain ⟨δ1, h1, hp1⟩ := hx s _ _ hx1
      obtain ⟨δ2, h2, hp2⟩ := hf a s1 _ _ h
      refine ⟨δ1 ++ δ2, ?_, ?_⟩
      · rw [h2, h1, List.append_assoc]
      · intro e he
        rcases List.mem_append.mp he with h' | h'
        · exact hp1 e h'
        · exact hp2 e h'
  | error e =>
      obtain ⟨δ1, h1, hp1⟩ := hx s _ _ hx1
      cases h
      exact ⟨δ1, h1, hp1⟩

theorem emitsOnly_emit {e : Ev} {P : Ev → Bool} (he : P e = true) :
    EmitsOnly (emit e) P := by
  intro s r s' h
  simp only [emit] at h
  cases h
  exact ⟨[e], rfl, by simpa using he⟩

theorem emitsOnly_sbRead (hw : Hw) (port : Nat) (reg : PhyReg) {P : Ev → Bool}
    (hp : P (Ev.rdPhy port reg) = true) :
    EmitsOnly (sbRead hw port reg) P := by
  intro s r s' h
  simp only [sbRead] at h
  rcases hf : hw.sbFail s.n with _ | e <;> rw [hf] at h <;> cases h <;>
    exact ⟨[Ev.rdPhy port reg], rfl, by simpa using hp⟩

theorem emitsOnly_sbWrite (hw : Hw) (port : Nat) (reg : PhyReg) (val : Nat)
    {P : Ev → Bool} (hp : P (Ev.wrPhy port reg val) = true) :
    EmitsOnly (sbWrite hw port reg val) P := by
  intro s r s' h
  simp only [sbWrite] at h
  rcases hf : hw.sbFail s.n with _ | e <;> rw [hf] at h <;> cases h
  · exact ⟨[Ev.wrPhy port reg val], rfl, by simpa using hp⟩
  · exact ⟨[], by simp, by simp⟩

theorem emitsOnly_forPorts {f : Nat → M Unit} {P : Ev → Bool}
    (hf : ∀ p, EmitsOnly (f p) P) :
    ∀ n start, EmitsOnly (forPorts f start n) P := by
  intro n
  induction n with
  | zero => intro start; exact emitsOnly_pure _ _
  | succ m ih =>
      intro start
      exact emitsOnly_bind (hf start) (fun _ => ih (start + 1))

theorem emitsOnly_one_port_cmd_eth56g (hw : Hw) (port : Nat) (cmd : TmrCmd)
    (lk : Bool) {P : Ev → Bool}
    (h1 : ∀ reg, P (Ev.rdPhy port reg) = true)
    (h2 : ∀ reg val, P (Ev.wrPhy port reg val) = true) :
    EmitsOnly (ice_ptp_one_port_cmd_eth56g hw port cmd lk) P := by
  unfold ice_ptp_one_port_cmd_eth56g
  rcases hw.phyOpc cmd with _ | opc
  · exact emitsOnly_throwM _ _
  · exact emitsOnly_bind (emitsOnly_sbRead _ _ _ (h1 _)) fun _ =>
      emitsOnly_bind (emitsOnly_sbWrite _ _ _ _ (h2 _ _)) fun _ =>
      emitsOnly_bind (emitsOnly_sbRead _ _ _ (h1 _)) fun _ =>
      emitsOnly_sbWrite _ _ _ _ (h2 _ _)

theorem emitsOnly_one_port_cmd_e822 (hw : Hw) (port : Nat) (cmd : TmrCmd)
    (lk : Bool) {P : Ev → Bool}
    (h1 : ∀ reg, P (Ev.rdPhy port reg) = true)
    (h2 : ∀ reg val, P (Ev.wrPhy port reg val) = true) :
    EmitsOnly (ice_ptp_one_port_cmd_e822 hw port cmd lk) P := by
  unfold ice_ptp_one_port_cmd_e822
  rcases hw.phyOpc cmd with _ | opc
  · exact emitsOnly_throwM _ _
  · exact emitsOnly_bind (emitsOnly_sbRead _ _ _ (h1 _)) fun _ =>
      emitsOnly_bind (emitsOnly_sbWrite _ _ _ _ (h2 _ _)) fun _ =>
      emitsOnly_bind (emitsOnly_sbRead _ _ _ (h1 _)) fun _ =>
      emitsOnly_sbWrite _ _ _ _ (h2 _ _)

/-- The port-staging phase of `ice_ptp_tmr_cmd` touches only sideband PHY
registers; in particular it never writes the execute pulse register. -/
theorem emitsOnly_tmr_cmd_ports (hw : Hw) (cmd : TmrCmd) (lk : Bool) :
    EmitsOnly (ice_ptp_tmr_cmd_ports hw cmd lk) stagingEv := by
  unfold ice_ptp_tmr_cmd_ports
  cases hw.phyModel with
  | eth56g =>
      exact emitsOnly_forPorts
        (fun p => emitsOnly_one_port_cmd_eth56g hw p cmd lk
          (fun _ => rfl) (fun _ _ => rfl)) _ _
  | e810 =>
      unfold ice_ptp_port_cmd_e810 ice_ptp_port_cmd_shared
      rcases hw.e810Opc cmd with _ | v
      · exact emitsOnly_throwM _ _
      · exact emitsOnly_bind (emitsOnly_sbRead _ _ _ rfl) fun _ =>
          emitsOnly_sbWrite _ _ _ _ rfl
  | e822 =>
      exact emitsOnly_forPorts
        (fun p => emitsOnly_one_port_cmd_e822 hw p cmd lk
          (fun _ => rfl) (fun _ _ => rfl)) _ _
  | unsup => exact emitsOnly_throwM _ _

theorem seq_ok {x : M Unit} {f : Unit → M Unit} {s s1 : S}
    (hx : x s = (Except.ok (), s1)) : (x >>= f) s = f () s1 := by
  rw [bind_def, hx]

theorem sbRead_ok {hw : Hw} {port : Nat} {reg : PhyReg} {s : S}
    (hf : hw.sbFail s.n = none) :
    sbRead hw port reg s = (Except.ok (regVal hw s port reg),
      { s with tr := s.tr ++ [Ev.rdPhy port reg], n := s.n + 1 }) := by
  simp [sbRead, hf]

theorem sbRead_err {hw : Hw} {port : Nat} {reg : PhyReg} {s : S} {e : Int}
    (hf : hw.sbFail s.n = some e) :
    sbRead hw port reg s = (Except.error e,
      { s with tr := s.tr ++ [Ev.rdPhy port reg], n := s.n + 1 }) := by
  simp [sbRead, hf]

theorem sbWrite_ok {hw : Hw} {port : Nat} {reg : PhyReg} {val : Nat} {s : S}
    (hf : hw.sbFail s.n = none) :
    sbWrite hw port reg val s = (Except.ok (),
      { s with tr := s.tr ++ [Ev.wrPhy port reg val]
               regs := fun p r => if p = port ∧ r = reg then some val else s.regs p r
               n := s.n + 1 }) := by
  simp [sbWrite, hf]

theorem sbWrite_err {hw : Hw} {port : Nat} {reg : PhyReg} {val : Nat} {s : S} {e : Int}
    (hf : hw.sbFail s.n = some e) :
    sbWrite hw port reg val s = (Except.error e, { s with n := s.n + 1 }) := by
  simp [sbWrite, hf]

/-! ## Claim C1 -/

/-- C1: for every timer command and PHY family, if the port-staging phase of
`ice_ptp_tmr_cmd` fails, the function returns exactly that staging error and
the execute pulse register `GLTSYN_CMD_SYNC` is never written during the
call, so nothing staged is committed. -/
theorem C1_tmr_cmd_staging_failure_no_pulse (hw : Hw) (cmd : TmrCmd)
    (lk : Bool) (s : S) (e : Int)
    (h : (runM (ice_ptp_tmr_cmd hw cmd lk) s).1 = Except.error e) :
    (runM (ice_ptp_tmr_cmd_ports hw cmd lk)
        ((runM (ice_ptp_src_cmd hw cmd) s).2)).1 = Except.error e ∧
    ∀ v, Ev.wrMmio MmioReg.gltsynCmdSync v ∉
        ((runM (ice_ptp_tmr_cmd hw cmd lk) s).2.tr.drop s.tr.length) := by
  have hsrc : ice_ptp_src_cmd hw cmd s =
      (Except.ok (), { s with tr := s.tr ++
        [Ev.wrMmio MmioReg.gltsynCmd
          (ice_get_ptp_src_clock_index hw <<< hw.selCpkSrc ||| hw.srcOpc cmd)] }) := rfl
  set v0 : Nat := ice_get_ptp_src_clock_index hw <<< hw.selCpkSrc ||| hw.srcOpc cmd
  set s1 : S := { s with tr := s.tr ++ [Ev.wrMmio MmioReg.gltsynCmd v0] }
  have hrun : ice_ptp_tmr_cmd hw cmd lk s =
      ((ice_ptp_tmr_cmd_ports hw cmd lk >>= fun _ =>
        ice_ptp_exec_tmr_cmd hw >>= fun _ => ice_ptp_clean_cmd) s1) := by
    show ((ice_ptp_src_cmd hw cmd) >>= fun _ =>
        ice_ptp_tmr_cmd_ports hw cmd lk >>= fun _ =>
        ice_ptp_exec_tmr_cmd hw >>= fun _ => ice_ptp_clean_cmd) s = _
    exact seq_ok hsrc
  rcases hp : ice_ptp_tmr_cmd_ports hw cmd lk s1 with ⟨r2, s2⟩
  cases r2 with
  | ok a =>
      exfalso
      have : ice_ptp_tmr_cmd hw cmd lk s =
          (Except.ok (), { s2 with tr := s2.tr ++
            [Ev.wrMmio MmioReg.gltsynCmdSync hw.syncExecCmd,
             Ev.wrMmio MmioReg.gltsynCmd 0] }) := by
        rw [hrun, bind_def, hp]
        cases a
        show ((ice_ptp_exec_tmr_cmd hw) >>= fun _ => ice_ptp_clean_cmd) s2 = _
        rw [bind_def]
        show (ice_ptp_clean_cmd)
            { s2 with tr := s2.tr ++ [Ev.wrMmio MmioReg.gltsynCmdSync hw.syncExecCmd] } = _
        simp [ice_ptp_clean_cmd, mmioWr, emit]
      rw [runM, this] at h
      exact Except.noConfusion h
  | error e2 =>
      have hwhole : ice_ptp_tmr_cmd hw cmd lk s = (Except.error e2, s2) := by
        rw [hrun, bind_def, hp]
      have he2 : e2 = e := by
        rw [runM, hwhole] at h
        exact (Except.error.injEq _ _).mp h
      subst he2
      constructor
      · have hs1 : (runM (ice_ptp_src_cmd hw cmd) s).2 = s1 := by
          rw [runM, hsrc]
        rw [hs1, runM, hp]
      · intro v
        obtain ⟨δ, hδ, hpδ⟩ := emitsOnly_tmr_cmd_ports hw cmd lk s1 _ _ hp
        have htr : (runM (ice_ptp_tmr_cmd hw cmd lk) s).2.tr =
            s.tr ++ ([Ev.wrMmio MmioReg.gltsynCmd v0] ++ δ) := by
          rw [runM, hwhole]
          show s2.tr = _
          rw [hδ]
          show s1.tr ++ δ = _
          simp [s1]
        rw [htr, List.drop_left]
        intro hmem
        rcases List.mem_append.mp hmem with h' | h'
        · rcases List.mem_singleton.mp h' with h''
          exact MmioReg.noConfusion (Ev.wrMmio.inj h'').1
        · have := hpδ _ h'
          simp [stagingEv] at this

/-- Fault-injecting fixture for the C1 witness: an E822 device whose very
first sideband transaction fails with `-EIO`. -/
def hwC1 : Hw :=
  { phyModel := PhyModel.e822
    phyPorts := 2
    sbFail := fun _ => some (-5)
    phyOpc := fun c => if c = TmrCmd.nop then none else some 1 }

/-- Witness for C1 at a concrete input: with the first sideband access
failing, `ice_ptp_tmr_cmd` fails and the conclusion holds. -/
theorem C1_witness :
    (runM (ice_ptp_tmr_cmd hwC1 TmrCmd.initTime true) {}).1 = Except.error (-5) ∧
    ((runM (ice_ptp_tmr_cmd_ports hwC1 TmrCmd.initTime true)
        ((runM (ice_ptp_src_cmd hwC1 TmrCmd.initTime) {}).2)).1 = Except.error (-5) ∧
      ∀ v, Ev.wrMmio MmioReg.gltsynCmdSync v ∉
        ((runM (ice_ptp_tmr_cmd hwC1 TmrCmd.initTime true) {}).2.tr.drop
          (S.tr {}).length)) :=
  ⟨by decide, C1_tmr_cmd_staging_failure_no_pulse hwC1 TmrCmd.initTime true {} (-5)
    (by decide)⟩

/-! ## Claim C2 -/

/-- Events that touch a given port's registers over the sideband. -/
def evInPort (p : Nat) : Ev → Bool
  | Ev.rdPhy q _ => q == p
  | Ev.wrPhy q _ _ => q == p
  | _ => false

/-- Concatenation of per-port event segments for ports
`start, start+1, …, start+n-1`, in index order. -/
def portsTrace (g : Nat → List Ev) : Nat → Nat → List Ev
  | _, 0 => []
  | start, n + 1 => g start ++ portsTrace g (start + 1) n

theorem portsTrace_congr {g g' : Nat → List Ev} :
    ∀ n start, (∀ p, start ≤ p → p < start + n → g p = g' p) →
    portsTrace g start n = portsTrace g' start n := by
  intro n
  induction n with
  | zero => intro start _; rfl
  | succ m ih =>
      intro start hg
      show g start ++ _ = g' start ++ _
      rw [hg start le_rfl (by omega), ih (start + 1) (fun p h1 h2 => hg p (by omega) (by omega))]

/-- A pulse on the execute register. -/
def isPulse : Ev → Bool
  | Ev.wrMmio MmioReg.gltsynCmdSync _ => true
  | _ => false

theorem forPorts_ok_decomp {f : Nat → M Unit}
    (hf : ∀ p, EmitsOnly (f p) (evInPort p)) :
    ∀ n start s s', forPorts f start n s = (Except.ok (), s') →
      ∃ g : Nat → List Ev, s'.tr = s.tr ++ portsTrace g start n ∧
        ∀ p e, e ∈ g p → evInPort p e = true := by
  intro n
  induction n with
  | zero =>
      intro start s s' h
      cases h
      exact ⟨fun _ => [], by simp [portsTrace], by simp⟩
  | succ m ih =>
      intro start s s' h
      rw [show forPorts f start (m + 1) =
            (f start >>= fun _ => forPorts f (start + 1) m) from rfl, bind_def] at h
      rcases h0 : f start s with ⟨r0, s0⟩
      rw [h0] at h
      cases r0 with
      | error e => exact absurd h (by simp)
      | ok a =>
          cases a
          obtain ⟨δ0, hδ0, hp0⟩ := hf start s _ _ h0
          obtain ⟨g, hg, hpg⟩ := ih (start + 1) s0 s' h
          refine ⟨fun p => if p = start then δ0 else g p, ?_, ?_⟩
          · have hcongr : portsTrace (fun p => if p = start then δ0 else g p)
                (start + 1) m = portsTrace g (start + 1) m :=
              portsTrace_congr m (start + 1) (fun p h1 _ => by
                rw [if_neg (by omega)])
            have hhead : portsTrace (fun p => if p = start then δ0 else g p)
                start (m + 1) = δ0 ++ portsTrace g (start + 1) m := by
              show (if start = start then δ0 else g start) ++ _ = _
              rw [if_pos rfl, hcongr]
            rw [hg, hδ0, hhead, List.append_assoc]
          · intro p e he
            by_cases hps : p = start
            · subst hps
              simp only [if_pos rfl] at he
              exact hp0 e he
            · simp only [if_neg hps] at he
              exact hpg p e he

/-- C2: in every successful run of `ice_ptp_tmr_cmd`, the trace is exactly:
the source command write to `GLTSYN_CMD`, then a block of sideband port
stagings, then one single execute pulse on `GLTSYN_CMD_SYNC`, then the zero
write clearing `GLTSYN_CMD`; the staging block contains no pulse, and for the
multi-port families it decomposes into per-port segments in index order. -/
theorem C2_tmr_cmd_success_order (hw : Hw) (cmd : TmrCmd) (lk : Bool) (s : S)
    (h : (runM (ice_ptp_tmr_cmd hw cmd lk) s).1 = Except.ok ()) :
    ∃ δ,
      (runM (ice_ptp_tmr_cmd hw cmd lk) s).2.tr =
        s.tr ++ [Ev.wrMmio MmioReg.gltsynCmd
            (ice_get_ptp_src_clock_index hw <<< hw.selCpkSrc ||| hw.srcOpc cmd)] ++
          δ ++ [Ev.wrMmio MmioReg.gltsynCmdSync hw.syncExecCmd,
                Ev.wrMmio MmioReg.gltsynCmd 0] ∧
      (∀ e ∈ δ, stagingEv e = true) ∧
      (((runM (ice_ptp_tmr_cmd hw cmd lk) s).2.tr.drop s.tr.length).countP isPulse = 1) ∧
      (hw.phyModel = PhyModel.eth56g →
        ∃ g, δ = portsTrace g 0 hw.maxPhyPort ∧ ∀ p e, e ∈ g p → evInPort p e = true) ∧
      (hw.phyModel = PhyModel.e822 →
        ∃ g, δ = portsTrace g 0 hw.phyPorts ∧ ∀ p e, e ∈ g p → evInPort p e = true) := by
  have hsrc : ice_ptp_src_cmd hw cmd s =
      (Except.ok (), { s with tr := s.tr ++
        [Ev.wrMmio MmioReg.gltsynCmd
          (ice_get_ptp_src_clock_index hw <<< hw.selCpkSrc ||| hw.srcOpc cmd)] }) := rfl
  set v0 : Nat := ice_get_ptp_src_clock_index hw <<< hw.selCpkSrc ||| hw.srcOpc cmd
  set s1 : S := { s with tr := s.tr ++ [Ev.wrMmio MmioReg.gltsynCmd v0] }
  have hrun : ice_ptp_tmr_cmd hw cmd lk s =
      ((ice_ptp_tmr_cmd_ports hw cmd lk >>= fun _ =>
        ice_ptp_exec_tmr_cmd hw >>= fun _ => ice_ptp_clean_cmd) s1) := by
    show ((ice_ptp_src_cmd hw cmd) >>= fun _ =>
        ice_ptp_tmr_cmd_ports hw cmd lk >>= fun _ =>
        ice_ptp_exec_tmr_cmd hw >>= fun _ => ice_ptp_clean_cmd) s = _
    exact seq_ok hsrc
  rcases hp : ice_ptp_tmr_cmd_ports hw cmd lk s1 with ⟨r2, s2⟩
  cases r2 with
  | error e2 =>
      exfalso
      have : ice_ptp_tmr_cmd hw cmd lk s = (Except.error e2, s2) := by
        rw [hrun, bind_def, hp]
      rw [runM, this] at h
      exact Except.noConfusion h
  | ok a =>
      cases a
      have hwhole : ice_ptp_tmr_cmd hw cmd lk s =
          (Except.ok (), { s2 with tr := s2.tr ++
            [Ev.wrMmio MmioReg.gltsynCmdSync hw.syncExecCmd,
             Ev.wrMmio MmioReg.gltsynCmd 0] }) := by
        rw [hrun, bind_def, hp]
        show ((ice_ptp_exec_tmr_cmd hw) >>= fun _ => ice_ptp_clean_cmd) s2 = _
        rw [bind_def]
        show (ice_ptp_clean_cmd)
            { s2 with tr := s2.tr ++ [Ev.wrMmio MmioReg.gltsynCmdSync hw.syncExecCmd] } = _
        simp [ice_ptp_clean_cmd, mmioWr, emit]
      obtain ⟨δ, hδ, hpδ⟩ := emitsOnly_tmr_cmd_ports hw cmd lk s1 _ _ hp
      have hs2tr : s2.tr = s.tr ++ [Ev.wrMmio MmioReg.gltsynCmd v0] ++ δ := by
        rw [hδ]
      refine ⟨δ, ?_, hpδ, ?_, ?_, ?_⟩
      · rw [runM, hwhole]
        show s2.tr ++ _ = _
        rw [hs2tr]
      · rw [runM, hwhole]
        show ((s2.tr ++ _).drop s.tr.length).countP isPulse = 1
        rw [hs2tr]
        rw [List.append_assoc, List.append_assoc, List.drop_left]
        rw [← List.append_assoc, List.countP_append]
        have hδ0 : δ.countP isPulse = 0 := by
          apply List.countP_eq_zero.mpr
          intro e he
          have := hpδ e he
          cases e <;> simp_all [stagingEv, isPulse]
        have h1 : ([Ev.wrMmio MmioReg.gltsynCmd v0] ++ δ).countP isPulse = 0 := by
          rw [List.countP_append, hδ0]
          simp [isPulse, List.countP_cons]
        have h2 : List.countP isPulse
            [Ev.wrMmio MmioReg.gltsynCmdSync hw.syncExecCmd,
             Ev.wrMmio MmioReg.gltsynCmd 0] = 1 := by
          simp [List.countP_cons, isPulse]
        omega
      · intro hm
        have hports : ice_ptp_tmr_cmd_ports hw cmd lk = ice_ptp_port_cmd_eth56g hw cmd lk := by
          unfold ice_ptp_tmr_cmd_ports
          rw [hm]
        rw [hports] at hp
        obtain ⟨g, hg, hpg⟩ := forPorts_ok_decomp
          (fun p => emitsOnly_one_port_cmd_eth56g hw p cmd lk
            (fun _ => by simp [evInPort]) (fun _ _ => by simp [evInPort]))
          hw.maxPhyPort 0 s1 s2 hp
        refine ⟨g, ?_, hpg⟩
        have : s1.tr ++ δ = s1.tr ++ portsTrace g 0 hw.maxPhyPort := by
          rw [← hδ, ← hg]
        exact List.append_cancel_left this
      · intro hm
        have hports : ice_ptp_tmr_cmd_ports hw cmd lk = ice_ptp_port_cmd_e822 hw cmd lk := by
          unfold ice_ptp_tmr_cmd_ports
          rw [hm]
        rw [hports] at hp
        obtain ⟨g, hg, hpg⟩ := forPorts_ok_decomp
          (fun p => emitsOnly_one_port_cmd_e822 hw p cmd lk
            (fun _ => by simp [evInPort]) (fun _ _ => by simp [evInPort]))
          hw.phyPorts 0 s1 s2 hp
        refine ⟨g, ?_, hpg⟩
        have : s1.tr ++ δ = s1.tr ++ portsTrace g 0 hw.phyPorts := by
          rw [← hδ, ← hg]
        exact List.append_cancel_left this

/-- Fault-free fixture for the C2 witness: an ETH56G device with two ports
and an error-free transport. -/
def hwC2 : Hw :=
  { phyModel := PhyModel.eth56g
    maxPhyPort := 2
    phyOpc := fun c => if c = TmrCmd.nop then none else some 1 }

/-- Witness for C2 at a concrete input: a fault-free two-port commit
succeeds and the ordered-trace conclusion holds. -/
theorem C2_witness :
    (runM (ice_ptp_tmr_cmd hwC2 TmrCmd.initTime true) {}).1 = Except.ok () ∧
    ∃ δ,
      (runM (ice_ptp_tmr_cmd hwC2 TmrCmd.initTime true) {}).2.tr =
        (S.tr {}) ++ [Ev.wrMmio MmioReg.gltsynCmd
            (ice_get_ptp_src_clock_index hwC2 <<< hwC2.selCpkSrc |||
              hwC2.srcOpc TmrCmd.initTime)] ++
          δ ++ [Ev.wrMmio MmioReg.gltsynCmdSync hwC2.syncExecCmd,
                Ev.wrMmio MmioReg.gltsynCmd 0] ∧
      (∀ e ∈ δ, stagingEv e = true) ∧
      (((runM (ice_ptp_tmr_cmd hwC2 TmrCmd.initTime true) {}).2.tr.drop
          (S.tr {}).length).countP isPulse = 1) ∧
      (hwC2.phyModel = PhyModel.eth56g →
        ∃ g, δ = portsTrace g 0 hwC2.maxPhyPort ∧ ∀ p e, e ∈ g p → evInPort p e = true) ∧
      (hwC2.phyModel = PhyModel.e822 →
        ∃ g, δ = portsTrace g 0 hwC2.phyPorts ∧ ∀ p e, e ∈ g p → evInPort p e = true) :=
  ⟨by decide, C2_tmr_cmd_success_order hwC2 TmrCmd.initTime true {} (by decide)⟩

/-! ## Claim C3 -/

/-- Fixture for C3: an E822 device with distinct PHY command opcodes for
`ICE_PTP_INIT_TIME` and `ICE_PTP_READ_TIME` and a fault-free transport. -/
def hwC3 : Hw :=
  { phyModel := PhyModel.e822
    phyPorts := 1
    tsCmdMask := 7
    phyOpc := fun c =>
      match c with
      | TmrCmd.initTime => some 1
      | TmrCmd.initIncval => some 2
      | TmrCmd.adjTime => some 3
      | TmrCmd.adjTimeAtTime => some 4
      | TmrCmd.readTime => some 5
      | TmrCmd.nop => none }

/-- C3 (code bug, evaluated at the failing input): the generic dispatcher
`ice_ptp_one_port_cmd`, called with `ICE_PTP_INIT_TIME`, performs exactly the
register writes of the family worker called with `ICE_PTP_READ_TIME` — and
not the writes the worker performs for the caller-supplied `ICE_PTP_INIT_TIME`
— contradicting the claim (and the function's own doc comment) that it writes
the opcode corresponding to the caller-supplied command. -/
theorem C3_one_port_cmd_dispatcher_ignores_cmd :
    (runM (ice_ptp_one_port_cmd hwC3 5 TmrCmd.initTime false) {}).1 =
        (runM (ice_ptp_one_port_cmd_e822 hwC3 5 TmrCmd.readTime true) {}).1 ∧
    (runM (ice_ptp_one_port_cmd hwC3 5 TmrCmd.initTime false) {}).2.tr =
        (runM (ice_ptp_one_port_cmd_e822 hwC3 5 TmrCmd.readTime true) {}).2.tr ∧
    (runM (ice_ptp_one_port_cmd hwC3 5 TmrCmd.initTime false) {}).2.tr ≠
        (runM (ice_ptp_one_port_cmd_e822 hwC3 5 TmrCmd.initTime true) {}).2.tr := by
  refine ⟨rfl, rfl, ?_⟩
  decide

/-! ## Claim C5 -/

/-- DPLL states, `enum ice_cgu_state`. -/
inductive CguState
  | invalid | freerun | locked | lockedHoAcq | holdover | unknown
deriving DecidableEq, Repr

/-- The payload of a successful `ice_aq_get_cgu_dpll_status` firmware query. -/
structure DpllStatus where
  refState : Nat := 0
  dpllState : Nat := 0
  phaseOffset : Int := 0
  eecMode : Nat := 0
deriving DecidableEq, Repr

/-- Header bit constants of the DPLL status word (modelled from the spec). -/
structure CguBits where
  lockMask : Nat := 1        -- ICE_AQC_GET_CGU_DPLL_STATUS_STATE_LOCK
  hoReadyMask : Nat := 2     -- ICE_AQC_GET_CGU_DPLL_STATUS_STATE_HO_READY
  refSelMask : Nat := 0      -- ICE_AQC_GET_CGU_DPLL_STATUS_STATE_CLK_REF_SEL
  refSelShift : Nat := 0     -- ICE_AQC_GET_CGU_DPLL_STATUS_STATE_CLK_REF_SHIFT
  dpllMax : Nat := 2         -- ICE_CGU_DPLL_MAX
deriving Repr

/-- `ice_get_cgu_state`: decode the DPLL state from the firmware status word,
latching Holdover from the previous state when the lock bit is clear.  `aq`
is the outcome of the `ice_aq_get_cgu_dpll_status` call; the returned pin and
phase offset model the out-parameters. -/
def ice_get_cgu_state (bits : CguBits) (dpll_idx : Nat)
    (aq : Except Int DpllStatus) (last : CguState) : CguState × Nat × Int :=
  if bits.dpllMax ≤ dpll_idx then (CguState.invalid, 0, 0)
  else
    match aq with
    | Except.error _ => (CguState.invalid, 0, 0)
    | Except.ok st =>
      let pin := (st.dpllState &&& bits.refSelMask) >>> bits.refSelShift
      if st.dpllState &&& bits.lockMask ≠ 0 then
        if st.dpllState &&& bits.hoReadyMask ≠ 0 then
          (CguState.lockedHoAcq, pin, st.phaseOffset)
        else
          (CguState.locked, pin, st.phaseOffset)
      else if last = CguState.lockedHoAcq ∨ last = CguState.holdover then
        (CguState.holdover, pin, st.phaseOffset)
      else
        (CguState.freerun, pin, st.phaseOffset)

/-- C5: for every successful hardware status reading whose DPLL lock bit is
clear, `ice_get_cgu_state` returns Holdover exactly when the previous state
was LockedHoldoverAcquired or Holdover, and FreeRun exactly otherwise. -/
theorem C5_cgu_state_holdover_latch (bits : CguBits) (dpll_idx : Nat)
    (st : DpllStatus) (last : CguState)
    (hidx : dpll_idx < bits.dpllMax)
    (hlock : st.dpllState &&& bits.lockMask = 0) :
    ((ice_get_cgu_state bits dpll_idx (Except.ok st) last).1 = CguState.holdover ↔
      (last = CguState.lockedHoAcq ∨ last = CguState.holdover)) ∧
    ((ice_get_cgu_state bits dpll_idx (Except.ok st) last).1 = CguState.freerun ↔
      ¬ (last = CguState.lockedHoAcq ∨ last = CguState.holdover)) := by
  by_cases hl : last = CguState.lockedHoAcq ∨ last = CguState.holdover <;>
    simp [ice_get_cgu_state, Nat.not_le.mpr hidx, hlock, hl]

/-- Witness for C5: previous state LockedHoldoverAcquired with a
"not locked, no holdover-ready" reading yields Holdover, never FreeRun. -/
theorem C5_witness :
    (0 < CguBits.dpllMax {} ∧ DpllStatus.dpllState {} &&& CguBits.lockMask {} = 0) ∧
    (((ice_get_cgu_state {} 0 (Except.ok {}) CguState.lockedHoAcq).1 =
        CguState.holdover ↔
      (CguState.lockedHoAcq = CguState.lockedHoAcq ∨
        CguState.lockedHoAcq = CguState.holdover)) ∧
    ((ice_get_cgu_state {} 0 (Except.ok {}) CguState.lockedHoAcq).1 =
        CguState.freerun ↔
      ¬ (CguState.lockedHoAcq = CguState.lockedHoAcq ∨
        CguState.lockedHoAcq = CguState.holdover))) :=
  ⟨⟨by decide, by decide⟩,
    C5_cgu_state_holdover_latch {} 0 {} CguState.lockedHoAcq (by decide) (by decide)⟩

/-! ## Claim C8 -/

/-- `ice_ptp_read_src_incval`: reconstruct the 40-bit source increment value
from the `GLTSYN_INCVAL_L/H` pair (`INCVAL_HIGH_M` masks the high byte). -/
def ice_ptp_read_src_incval (hw : Hw) : Nat :=
  ((hw.incvalHi &&& 0xFF) <<< 32) ||| hw.incvalLo

/-- `ice_calc_fixed_tx_offset_e822`, computing in unsigned 64-bit arithmetic:
`tu_per_sec = cur_freq * clk_incval`, then the staged divisions
`tu_per_sec / 10000 * tx_fixed_delay / 10000000` (each step truncating,
each step wrapping modulo 2^64 exactly as the C `u64` operations do). -/
def ice_calc_fixed_tx_offset_e822 (hw : Hw) (spd : LinkSpd) : Nat :=
  let cur_freq := hw.pllFreq
  let clk_incval := ice_ptp_read_src_incval hw
  let tu_per_sec := cur_freq * clk_incval % 2 ^ 64
  let fixed_offset := tu_per_sec / 10000
  let fixed_offset := fixed_offset * (hw.vernier spd).txFixedDelay % 2 ^ 64
  fixed_offset / 10000000

/-- `ice_calc_fixed_rx_offset_e822`: identical staging with the per-speed
`rx_fixed_delay` constant. -/
def ice_calc_fixed_rx_offset_e822 (hw : Hw) (spd : LinkSpd) : Nat :=
  let cur_freq := hw.pllFreq
  let clk_incval := ice_ptp_read_src_incval hw
  let tu_per_sec := cur_freq * clk_incval % 2 ^ 64
  let fixed_offset := tu_per_sec / 10000
  let fixed_offset := fixed_offset * (hw.vernier spd).rxFixedDelay % 2 ^ 64
  fixed_offset / 10000000

/-- C8: whenever the TUs-per-second product and the staged product fit in 64
bits (which the claim asserts of the reference constant tables), the E822
fixed Tx and Rx offsets computed by the code equal the exact mathematical
value of `freq * incval / 10000 * delay / 10000000` in that staged order,
with truncating division and no wrap at any step. -/
theorem C8_fixed_offset_staged_arithmetic (hw : Hw) (spd : LinkSpd)
    (h1 : hw.pllFreq * ice_ptp_read_src_incval hw < 2 ^ 64)
    (h2 : hw.pllFreq * ice_ptp_read_src_incval hw / 10000 *
        (hw.vernier spd).txFixedDelay < 2 ^ 64)
    (h3 : hw.pllFreq * ice_ptp_read_src_incval hw / 10000 *
        (hw.vernier spd).rxFixedDelay < 2 ^ 64) :
    ice_calc_fixed_tx_offset_e822 hw spd =
      hw.pllFreq * ice_ptp_read_src_incval hw / 10000 *
        (hw.vernier spd).txFixedDelay / 10000000 ∧
    ice_calc_fixed_rx_offset_e822 hw spd =
      hw.pllFreq * ice_ptp_read_src_incval hw / 10000 *
        (hw.vernier spd).rxFixedDelay / 10000000 := by
  unfold ice_calc_fixed_tx_offset_e822 ice_calc_fixed_rx_offset_e822
  simp only []
  rw [Nat.mod_eq_of_lt h1, Nat.mod_eq_of_lt h2, Nat.mod_eq_of_lt h3]
  exact ⟨rfl, rfl⟩

/-- Representative fixture for the C8 witness: a 25 MHz-class TIME_REF PLL
frequency and a mid-range 40-bit increment value. -/
def hwC8 : Hw :=
  { phyModel := PhyModel.e822
    pllFreq := 800000000
    incvalLo := 0x33333333
    incvalHi := 1
    vernier := fun _ => { txFixedDelay := 1234, rxFixedDelay := 5678, pmdAdjDivisor := 33 } }

/-- Witness for C8 at the fixture constants. -/
theorem C8_witness :
    (hwC8.pllFreq * ice_ptp_read_src_incval hwC8 < 2 ^ 64 ∧
      hwC8.pllFreq * ice_ptp_read_src_incval hwC8 / 10000 *
        (hwC8.vernier LinkSpd.s10G).txFixedDelay < 2 ^ 64 ∧
      hwC8.pllFreq * ice_ptp_read_src_incval hwC8 / 10000 *
        (hwC8.vernier LinkSpd.s10G).rxFixedDelay < 2 ^ 64) ∧
    (ice_calc_fixed_tx_offset_e822 hwC8 LinkSpd.s10G =
      hwC8.pllFreq * ice_ptp_read_src_incval hwC8 / 10000 *
        (hwC8.vernier LinkSpd.s10G).txFixedDelay / 10000000 ∧
    ice_calc_fixed_rx_offset_e822 hwC8 LinkSpd.s10G =
      hwC8.pllFreq * ice_ptp_read_src_incval hwC8 / 10000 *
        (hwC8.vernier LinkSpd.s10G).rxFixedDelay / 10000000) :=
  ⟨⟨by decide, by decide, by decide⟩,
    C8_fixed_offset_staged_arithmetic hwC8 LinkSpd.s10G
      (by decide) (by decide) (by decide)⟩

/-! ## Claim C6 -/

/-- Enumerated `enum ice_time_ref_freq` range: `ICE_TIME_REF_FREQ_25_000 = 0`
(the first enumerator, per `ice_clk_freq_str`), `NUM_ICE_TIME_REF_FREQ = 6`.
`enum ice_clk_src`: `ICE_CLK_SRC_TCX0 = 0`, `NUM_ICE_CLK_SRC = 2` (modelled
from the spec's enumerated ranges; the numeric encoding lives in the header). -/
def NUM_ICE_TIME_REF_FREQ : Nat := 6

def NUM_ICE_CLK_SRC : Nat := 2

def ICE_TIME_REF_FREQ_25_000 : Nat := 0

def ICE_CLK_SRC_TCX0 : Nat := 0

/-- `ice_cfg_cgu_pll_e822`: validate the requested frequency and source,
reject TCX0 with any frequency other than 25 MHz, then reconfigure the PLL
through the CGU registers and poll the lock bit once after a 1 ms settle. -/
def ice_cfg_cgu_pll_e822 (hw : Hw) (clk_freq clk_src : Nat) : M (Nat × Nat) := do
  if NUM_ICE_TIME_REF_FREQ ≤ clk_freq then throwM (-22)
  else if NUM_ICE_CLK_SRC ≤ clk_src then throwM (-22)
  else if clk_src = ICE_CLK_SRC_TCX0 ∧ clk_freq ≠ ICE_TIME_REF_FREQ_25_000 then
    throwM (-22)
  else do
    let dw9 ← cguRead hw CguReg.dw9
    let dw24 ← cguRead hw CguReg.dw24
    let _bwm ← cguRead hw CguReg.bwmLf
    let _dw24 ← (if dw24.tsPllEnable then do
        let dw24' := { dw24 with tsPllEnable := false }
        cguWrite hw CguReg.dw24 dw24'
        pure dw24'
      else pure dw24)
    let dw9 := { dw9 with timeRefFreqSel := clk_freq }
    cguWrite hw CguReg.dw9 dw9
    let dw19 ← cguRead hw CguReg.dw19
    let dw19 := { dw19 with fbdivIntgr := (hw.cguParams clk_freq).feedbackDiv,
                            ndivratio := 1 }
    cguWrite hw CguReg.dw19 dw19
    let dw22 ← cguRead hw CguReg.dw22
    let dw22 := { dw22 with clkDiv := (hw.cguParams clk_freq).postPllDiv,
                            clkSelDiv2 := 0 }
    cguWrite hw CguReg.dw22 dw22
    let dw24 ← cguRead hw CguReg.dw24
    let dw24 := { dw24 with refCkDiv := (hw.cguParams clk_freq).refclkPreDiv,
                            fbdivFrac := (hw.cguParams clk_freq).fracNDiv,
                            timeRefSel := clk_src }
    cguWrite hw CguReg.dw24 dw24
    let dw24 := { dw24 with tsPllEnable := true }
    cguWrite hw CguReg.dw24 dw24
    msleepM 1
    let bwm2 ← cguRead hw CguReg.bwmLf
    if !bwm2.lockBit then throwM (-16)
    else pure (dw9.timeRefFreqSel, dw24.timeRefSel)

/-- `ice_cfg_cgu_pll_e825c`: the E825-C variant; identical validation, with
the enable / source-select fields living in `NAC_CGU_DWORD23_E825C` and the
lock bit in `TSPLL_RO_LOCK_E825C`. -/
def ice_cfg_cgu_pll_e825c (hw : Hw) (clk_freq clk_src : Nat) : M (Nat × Nat) := do
  if NUM_ICE_TIME_REF_FREQ ≤ clk_freq then throwM (-22)
  else if NUM_ICE_CLK_SRC ≤ clk_src then throwM (-22)
  else if clk_src = ICE_CLK_SRC_TCX0 ∧ clk_freq ≠ ICE_TIME_REF_FREQ_25_000 then
    throwM (-22)
  else do
    let dw9 ← cguRead hw CguReg.dw9
    let dw24 ← cguRead hw CguReg.dw24
    let dw23 ← cguRead hw CguReg.dw23
    let _ro ← cguRead hw CguReg.roLock
    let _dw23 ← (if dw23.tsPllEnable then do
        let dw23' := { dw23 with tsPllEnable := false }
        cguWrite hw CguReg.dw23 dw23'
        pure dw23'
      else pure dw23)
    let dw9 := { dw9 with timeRefFreqSel := clk_freq }
    cguWrite hw CguReg.dw9 dw9
    let dw19 ← cguRead hw CguReg.dw19
    let dw19 := { dw19 with fbdivIntgr := (hw.cguParams clk_freq).feedbackDiv,
                            ndivratio := 1 }
    cguWrite hw CguReg.dw19 dw19
    let dw22 ← cguRead hw CguReg.dw22
    let dw22 := { dw22 with clkDiv := (hw.cguParams clk_freq).postPllDiv,
                            clkSelDiv2 := 0 }
    cguWrite hw CguReg.dw22 dw22
    let dw23b ← cguRead hw CguReg.dw23
    let dw23b := { dw23b with refCkDiv := (hw.cguParams clk_freq).refclkPreDiv,
                              timeRefSel := clk_src }
    cguWrite hw CguReg.dw23 dw23b
    let dw24 := { dw24 with fbdivFrac := (hw.cguParams clk_freq).fracNDiv }
    cguWrite hw CguReg.dw24 dw24
    let dw23c := { dw23b with tsPllEnable := true }
    cguWrite hw CguReg.dw23 dw23c
    msleepM 1
    let ro2 ← cguRead hw CguReg.roLock
    if !ro2.lockBit then throwM (-16)
    else pure (dw9.timeRefFreqSel, dw23c.timeRefSel)

/-- C6: both PLL configuration variants reject an out-of-range frequency, an
out-of-range source, and TCX0 paired with any frequency other than the single
supported 25 MHz rate, returning `-EINVAL` with the machine state untouched —
before any register read or write is issued. -/
theorem C6_cfg_cgu_pll_rejects_invalid (hw : Hw) (s : S) (clk_freq clk_src : Nat)
    (h : NUM_ICE_TIME_REF_FREQ ≤ clk_freq ∨ NUM_ICE_CLK_SRC ≤ clk_src ∨
      (clk_src = ICE_CLK_SRC_TCX0 ∧ clk_freq ≠ ICE_TIME_REF_FREQ_25_000)) :
    runM (ice_cfg_cgu_pll_e822 hw clk_freq clk_src) s = (Except.error (-22), s) ∧
    runM (ice_cfg_cgu_pll_e825c hw clk_freq clk_src) s = (Except.error (-22), s) := by
  unfold NUM_ICE_TIME_REF_FREQ NUM_ICE_CLK_SRC ICE_CLK_SRC_TCX0
    ICE_TIME_REF_FREQ_25_000 at h
  constructor
  · unfold ice_cfg_cgu_pll_e822 runM throwM
    unfold NUM_ICE_TIME_REF_FREQ NUM_ICE_CLK_SRC ICE_CLK_SRC_TCX0
      ICE_TIME_REF_FREQ_25_000
    split_ifs with hA hB hC
    · rfl
    · rfl
    · rfl
    · exfalso; omega
  · unfold ice_cfg_cgu_pll_e825c runM throwM
    unfold NUM_ICE_TIME_REF_FREQ NUM_ICE_CLK_SRC ICE_CLK_SRC_TCX0
      ICE_TIME_REF_FREQ_25_000
    split_ifs with hA hB hC
    · rfl
    · rfl
    · rfl
    · exfalso; omega

/-- Witness for C6: TCX0 together with the 122.88 MHz enumerator is rejected
with no state change. -/
theorem C6_witness :
    (NUM_ICE_TIME_REF_FREQ ≤ 1 ∨ NUM_ICE_CLK_SRC ≤ 0 ∨
      (0 = ICE_CLK_SRC_TCX0 ∧ 1 ≠ ICE_TIME_REF_FREQ_25_000)) ∧
    ((runM (ice_cfg_cgu_pll_e822 { phyModel := PhyModel.e822 } 1 0) {}).1 =
        Except.error (-22) ∧
      (runM (ice_cfg_cgu_pll_e825c { phyModel := PhyModel.e822 } 1 0) {}).1 =
        Except.error (-22)) := by
  have h := C6_cfg_cgu_pll_rejects_invalid { phyModel := PhyModel.e822 } {} 1 0
    (Or.inr (Or.inr (by decide)))
  exact ⟨Or.inr (Or.inr (by decide)), by rw [h.1], by rw [h.2]⟩

/-! ## Claim C10 -/

/-- `ice_read_phy_tstamp_eth56g`: read the 40-bit timestamp out of the port
memory pair; lower 8 bits in the low register, upper 32 bits in the high
register (`TS_PHY_LOW_M = 0xFF`, `TS_PHY_HIGH_S = 8`, per the source
comments). -/
def ice_read_phy_tstamp_eth56g (hw : Hw) (port idx : Nat) : M Nat := do
  let lo ← sbRead hw port (PhyReg.tstampLo idx)
  let hi ← sbRead hw port (PhyReg.tstampHi idx)
  pure (hi <<< 8 ||| (lo &&& 0xFF))

/-- `ice_clear_phy_tstamp_eth56g`: read the timestamp (a failed read is only
logged, not propagated), then force-write the low register to zero. -/
def ice_clear_phy_tstamp_eth56g (hw : Hw) (port idx : Nat) : M Unit := do
  let _ ← attempt (ice_read_phy_tstamp_eth56g hw port idx)
  sbWrite hw port (PhyReg.tstampLo idx) 0

/-- `ice_read_phy_tstamp_e810` (via the sideband path
`ice_read_phy_tstamp_sbq_e810`; the low-latency path differs only in
transport): low 32 bits in the low register, upper 8 bits in the high
register (`TS_LOW_M = 0xFFFFFFFF`, `TS_HIGH_S = 32`, per the source
comments). -/
def ice_read_phy_tstamp_e810 (hw : Hw) (lport idx : Nat) : M Nat := do
  let lo ← sbRead hw lport (PhyReg.tstampLo idx)
  let hi ← sbRead hw lport (PhyReg.tstampHi idx)
  pure ((hi &&& 0xFF) <<< 32 ||| (lo &&& 0xFFFFFFFF))

/-- `ice_clear_phy_tstamp_e810`: read the timestamp (a failed read aborts),
then force-write the low and the high register to zero. -/
def ice_clear_phy_tstamp_e810 (hw : Hw) (lport idx : Nat) : M Unit := do
  let _ ← ice_read_phy_tstamp_e810 hw lport idx
  sbWrite hw lport (PhyReg.tstampLo idx) 0
  sbWrite hw lport (PhyReg.tstampHi idx) 0

/-- `ice_read_phy_tstamp_e822`: read the 40-bit timestamp out of the quad
memory bank; lower 8 bits in the low register, upper 32 bits in the high
register. -/
def ice_read_phy_tstamp_e822 (hw : Hw) (quad idx : Nat) : M Nat := do
  let lo ← sbRead hw quad (PhyReg.tstampLo idx)
  let hi ← sbRead hw quad (PhyReg.tstampHi idx)
  pure (hi <<< 8 ||| (lo &&& 0xFF))

/-- `ice_clear_phy_tstamp_e822`: only read the timestamp out of the quad to
clear its status bit — software cannot write the quad memory bank registers,
so no zero write is performed. -/
def ice_clear_phy_tstamp_e822 (hw : Hw) (quad idx : Nat) : M Unit := do
  let _ ← ice_read_phy_tstamp_e822 hw quad idx
  pure ()

/-- Read events. -/
def isRdPhy : Ev → Bool
  | Ev.rdPhy _ _ => true
  | _ => false

theorem emitsOnly_read_tstamp_eth56g (hw : Hw) (port idx : Nat) :
    EmitsOnly (ice_read_phy_tstamp_eth56g hw port idx) isRdPhy :=
  emitsOnly_bind (emitsOnly_sbRead _ _ _ rfl) fun _ =>
    emitsOnly_bind (emitsOnly_sbRead _ _ _ rfl) fun _ => emitsOnly_pure _ _

theorem emitsOnly_read_tstamp_e810 (hw : Hw) (lport idx : Nat) :
    EmitsOnly (ice_read_phy_tstamp_e810 hw lport idx) isRdPhy :=
  emitsOnly_bind (emitsOnly_sbRead _ _ _ rfl) fun _ =>
    emitsOnly_bind (emitsOnly_sbRead _ _ _ rfl) fun _ => emitsOnly_pure _ _

theorem emitsOnly_read_tstamp_e822 (hw : Hw) (quad idx : Nat) :
    EmitsOnly (ice_read_phy_tstamp_e822 hw quad idx) isRdPhy :=
  emitsOnly_bind (emitsOnly_sbRead _ _ _ rfl) fun _ =>
    emitsOnly_bind (emitsOnly_sbRead _ _ _ rfl) fun _ => emitsOnly_pure _ _

/-- C10 counterexample: on the E822 quad PHY, a (successful, fault-free)
`ice_clear_phy_tstamp_e822` call performs no register write at all — in
particular it does not force-write the low timestamp register to zero as the
claim states for "every PHY family". -/
theorem C10_counterexample_e822_clear_never_writes :
    (runM (ice_clear_phy_tstamp_e822 { phyModel := PhyModel.e822 } 0 3) {}).1 =
      Except.ok () ∧
    ∀ p r v, Ev.wrPhy p r v ∉
      (runM (ice_clear_phy_tstamp_e822 { phyModel := PhyModel.e822 } 0 3) {}).2.tr := by
  refine ⟨by decide, ?_⟩
  intro p r v
  show Ev.wrPhy p r v ∉ [Ev.rdPhy 0 (PhyReg.tstampLo 3), Ev.rdPhy 0 (PhyReg.tstampHi 3)]
  simp

/-- C10 (amended): `clear_timestamp` first reads the indexed timestamp; on
ETH56G it then force-writes the low register to zero (even if the read
failed), on E810 it then force-writes the low and high registers to zero, and
on E822 it performs the read only — the quad memory bank is not
software-writable, so no zero write ever occurs there. -/
theorem C10_clear_tstamp_read_then_write (hw : Hw) (port idx : Nat) (s : S) :
    ((runM (ice_clear_phy_tstamp_eth56g hw port idx) s).1 = Except.ok () →
      ∃ δ, (runM (ice_clear_phy_tstamp_eth56g hw port idx) s).2.tr =
          s.tr ++ δ ++ [Ev.wrPhy port (PhyReg.tstampLo idx) 0] ∧
        ∀ e ∈ δ, isRdPhy e = true) ∧
    ((runM (ice_clear_phy_tstamp_e810 hw port idx) s).1 = Except.ok () →
      ∃ δ, (runM (ice_clear_phy_tstamp_e810 hw port idx) s).2.tr =
          s.tr ++ δ ++ [Ev.wrPhy port (PhyReg.tstampLo idx) 0,
                        Ev.wrPhy port (PhyReg.tstampHi idx) 0] ∧
        ∀ e ∈ δ, isRdPhy e = true) ∧
    (∃ δ, (runM (ice_clear_phy_tstamp_e822 hw port idx) s).2.tr = s.tr ++ δ ∧
      ∀ e ∈ δ, isRdPhy e = true) := by
  refine ⟨?_, ?_, ?_⟩
  · intro h
    rcases hr : ice_read_phy_tstamp_eth56g hw port idx s with ⟨r0, s1⟩
    obtain ⟨δ, hδ, hpδ⟩ := emitsOnly_read_tstamp_eth56g hw port idx s _ _ hr
    have hrun : ice_clear_phy_tstamp_eth56g hw port idx s =
        sbWrite hw port (PhyReg.tstampLo idx) 0 s1 := by
      show ((attempt (ice_read_phy_tstamp_eth56g hw port idx)) >>= fun _ =>
          sbWrite hw port (PhyReg.tstampLo idx) 0) s = _
      rw [bind_def]
      rw [show (attempt (ice_read_phy_tstamp_eth56g hw port idx)) s = (Except.ok r0, s1) by
        rw [attempt, hr]]
    rw [runM, hrun] at h ⊢
    rcases hf : hw.sbFail s1.n with _ | e
    · rw [sbWrite_ok hf] at h ⊢
      refine ⟨δ, ?_, hpδ⟩
      show s1.tr ++ _ = _
      rw [hδ]
    · rw [sbWrite_err hf] at h
      exact absurd h (by simp)
  · intro h
    rcases hr : ice_read_phy_tstamp_e810 hw port idx s with ⟨r0, s1⟩
    obtain ⟨δ, hδ, hpδ⟩ := emitsOnly_read_tstamp_e810 hw port idx s _ _ hr
    cases r0 with
    | error e =>
        have hrun : ice_clear_phy_tstamp_e810 hw port idx s = (Except.error e, s1) := by
          show ((ice_read_phy_tstamp_e810 hw port idx) >>= fun _ =>
              sbWrite hw port (PhyReg.tstampLo idx) 0 >>= fun _ =>
              sbWrite hw port (PhyReg.tstampHi idx) 0) s = _
          rw [bind_def, hr]
        rw [runM, hrun] at h
        exact absurd h (by simp)
    | ok v =>
        have hrun : ice_clear_phy_tstamp_e810 hw port idx s =
            (sbWrite hw port (PhyReg.tstampLo idx) 0 >>= fun _ =>
             sbWrite hw port (PhyReg.tstampHi idx) 0) s1 := by
          show ((ice_read_phy_tstamp_e810 hw port idx) >>= fun _ =>
              sbWrite hw port (PhyReg.tstampLo idx) 0 >>= fun _ =>
              sbWrite hw port (PhyReg.tstampHi idx) 0) s = _
          rw [bind_def, hr]
        rw [runM, hrun] at h ⊢
        rw [bind_def] at h ⊢
        rcases hf1 : hw.sbFail s1.n with _ | e1
        · rw [sbWrite_ok hf1] at h ⊢
          simp only [] at h ⊢
          rcases hf2 : hw.sbFail (s1.n + 1) with _ | e2
          · rw [sbWrite_ok hf2] at h ⊢
            refine ⟨δ, ?_, hpδ⟩
            show s1.tr ++ _ ++ _ = _
            rw [hδ]
            simp
          · rw [sbWrite_err hf2] at h
            exact absurd h (by simp)
        · rw [sbWrite_err hf1] at h
          exact absurd h (by simp)
  · rcases hr : ice_read_phy_tstamp_e822 hw port idx s with ⟨r0, s1⟩
    obtain ⟨δ, hδ, hpδ⟩ := emitsOnly_read_tstamp_e822 hw port idx s _ _ hr
    cases r0 with
    | error e =>
        have hrun : ice_clear_phy_tstamp_e822 hw port idx s = (Except.error e, s1) := by
          show ((ice_read_phy_tstamp_e822 hw port idx) >>= fun _ => pure ()) s = _
          rw [bind_def, hr]
        rw [runM, hrun]
        exact ⟨δ, hδ, hpδ⟩
    | ok v =>
        have hrun : ice_clear_phy_tstamp_e822 hw port idx s = (Except.ok (), s1) := by
          show ((ice_read_phy_tstamp_e822 hw port idx) >>= fun _ => pure ()) s = _
          rw [bind_def, hr]
          rfl
        rw [runM, hrun]
        exact ⟨δ, hδ, hpδ⟩

/-- Witness for C10 at a concrete input: a fault-free ETH56G / E810 clear
succeeds and decomposes as read-then-zero-write. -/
theorem C10_witness :
    ((runM (ice_clear_phy_tstamp_eth56g { phyModel := PhyModel.eth56g } 1 2) {}).1 =
        Except.ok () ∧
      (runM (ice_clear_phy_tstamp_e810 { phyModel := PhyModel.eth56g } 1 2) {}).1 =
        Except.ok ()) ∧
    (∃ δ, (runM (ice_clear_phy_tstamp_eth56g { phyModel := PhyModel.eth56g } 1 2) {}).2.tr =
        (S.tr {}) ++ δ ++ [Ev.wrPhy 1 (PhyReg.tstampLo 2) 0] ∧
      ∀ e ∈ δ, isRdPhy e = true) :=
  ⟨⟨by decide, by decide⟩,
    (C10_clear_tstamp_read_then_write { phyModel := PhyModel.eth56g } 1 2 {}).1
      (by decide)⟩

/-! ## Claims C4 and C9: Vernier offset configuration -/

/-- `ice_read_64b_phy_reg_e822`: read the two halves (low register first),
returning `high << 32 | low`. -/
def ice_read_64b_phy_reg_e822 (hw : Hw) (port : Nat) (loReg hiReg : PhyReg) : M Nat := do
  let low ← sbRead hw port loReg
  let high ← sbRead hw port hiReg
  pure (high <<< 32 ||| low)

/-- `ice_write_64b_phy_reg_e822`: write the low 32 bits to the low register,
then the upper 32 bits to the high register. -/
def ice_write_64b_phy_reg_e822 (hw : Hw) (port : Nat) (loReg hiReg : PhyReg)
    (val : Nat) : M Unit := do
  sbWrite hw port loReg (lo32 val)
  sbWrite hw port hiReg (hi32 val)

/-- `ice_write_64b_phy_reg_eth56g`: same split-write shape on the ETH56G
register pairs. -/
def ice_write_64b_phy_reg_eth56g (hw : Hw) (port : Nat) (loReg hiReg : PhyReg)
    (val : Nat) : M Unit := do
  sbWrite hw port loReg (lo32 val)
  sbWrite hw port hiReg (hi32 val)

/-- `ice_phy_get_speed_and_fec_e822`: read `P_REG_LINK_SPEED`, decode the FEC
mode from the serdes word, mask the serdes field and decode the link speed;
unknown serdes values yield `-EIO`. -/
def ice_phy_get_speed_and_fec_e822 (hw : Hw) (port : Nat) : M (LinkSpd × FecMode) := do
  let serdes ← sbRead hw port PhyReg.linkSpeed
  let fec := hw.fecOf serdes
  let sd := serdes &&& hw.serdesMask
  if fec = FecMode.rs then
    if sd = hw.serdes25G then pure (LinkSpd.s25GRS, fec)
    else if sd = hw.serdes50G then pure (LinkSpd.s50GRS, fec)
    else if sd = hw.serdes100G then pure (LinkSpd.s100GRS, fec)
    else throwM (-5)
  else
    if sd = hw.serdes1G then pure (LinkSpd.s1G, fec)
    else if sd = hw.serdes10G then pure (LinkSpd.s10G, fec)
    else if sd = hw.serdes25G then pure (LinkSpd.s25G, fec)
    else if sd = hw.serdes40G then pure (LinkSpd.s40G, fec)
    else if sd = hw.serdes50G then pure (LinkSpd.s50G, fec)
    else throwM (-5)

/-- The total-Tx-offset computation of `ice_phy_cfg_tx_offset_e822` (the part
after the guards and the speed/FEC decode): the fixed offset plus the first
Vernier register for the single-Vernier speeds, plus the second Vernier
register for the RS multi-lane speeds. -/
def tx_total_mid (hw : Hw) (port : Nat) (sf : LinkSpd × FecMode) : M Nat := do
  let spd := sf.1
  let total := ice_calc_fixed_tx_offset_e822 hw spd
  let total ← (if spd = LinkSpd.s1G ∨ spd = LinkSpd.s10G ∨ spd = LinkSpd.s25G ∨
      spd = LinkSpd.s25GRS ∨ spd = LinkSpd.s40G ∨ spd = LinkSpd.s50G then do
      let v ← ice_read_64b_phy_reg_e822 hw port
        PhyReg.parPcsTxOffsetL PhyReg.parPcsTxOffsetU
      pure ((total + v) % 2 ^ 64)
    else pure total)
  if spd = LinkSpd.s50GRS ∨ spd = LinkSpd.s100GRS then do
    let v ← ice_read_64b_phy_reg_e822 hw port
      PhyReg.parTxTimeL PhyReg.parTxTimeU
    pure ((total + v) % 2 ^ 64)
  else pure total

/-- The programming tail of `ice_phy_cfg_tx_offset_e822`: decode speed and
FEC, compute the total offset, program it and set the ready flag. -/
def ice_phy_cfg_tx_offset_e822_prog (hw : Hw) (port : Nat) : M Unit := do
  let sf ← ice_phy_get_speed_and_fec_e822 hw port
  let total ← tx_total_mid hw port sf
  ice_write_64b_phy_reg_e822 hw port
    PhyReg.totalTxOffsetL PhyReg.totalTxOffsetU total
  sbWrite hw port PhyReg.txOr 1

/-- `ice_phy_cfg_tx_offset_e822`: return immediately (success, nothing
written) when `P_REG_TX_OR` is already set; return `-EBUSY` (nothing written)
while the hardware offset-valid bit of `P_REG_TX_OV_STATUS` is clear;
otherwise compute the total Tx offset (fixed plus the applicable Vernier
registers) and program it, then set `P_REG_TX_OR` to 1. -/
def ice_phy_cfg_tx_offset_e822 (hw : Hw) (port : Nat) : M Unit := do
  let reg ← sbRead hw port PhyReg.txOr
  if reg ≠ 0 then pure ()
  else do
    let reg2 ← sbRead hw port PhyReg.txOvStatus
    if reg2 &&& hw.txOvMask = 0 then throwM (-16)
    else ice_phy_cfg_tx_offset_e822_prog hw port

/-- The speed / FEC-dependent multiplier selection block of
`ice_phy_calc_pmd_adj_e822` (`mult` in the source): per link speed, the
adjustment multiplier derived from the observed PMD alignment counter. -/
def pmd_adj_mult (pmd_align : Nat) (spd : LinkSpd) (fec : FecMode) : Nat :=
  if spd = LinkSpd.s1G then
    (if pmd_align = 4 then 10 else (pmd_align + 6) % 10)
  else if spd = LinkSpd.s10G ∨ spd = LinkSpd.s25G ∨
      spd = LinkSpd.s40G ∨ spd = LinkSpd.s50G then
    (if pmd_align ≠ 65 ∨ fec = FecMode.clause74 then pmd_align else 0)
  else if spd = LinkSpd.s25GRS ∨ spd = LinkSpd.s50GRS ∨
      spd = LinkSpd.s100GRS then
    (if pmd_align < 17 then pmd_align + 40 else pmd_align)
  else 0

/-- `ice_phy_calc_pmd_adj_e822`: read the PMD alignment, choose the
speed/FEC-dependent multiplier, scale TUs-per-second by `mult / 125 /
pmd_adj_divisor`, and for 25G-RS / 50G-RS add the Rx-cycle-count term. -/
def ice_phy_calc_pmd_adj_e822 (hw : Hw) (port : Nat) (spd : LinkSpd)
    (fec : FecMode) : M Nat := do
  let val ← sbRead hw port PhyReg.pmdAlignment
  let pmd_align := val &&& 0xFF
  let tu_per_sec := hw.pllFreq * ice_ptp_read_src_incval hw % 2 ^ 64
  let divisor := (hw.vernier spd).pmdAdjDivisor
  let mult := pmd_adj_mult pmd_align spd fec
  if mult = 0 then pure 0
  else do
    let adj := tu_per_sec / 125
    let adj := adj * mult % 2 ^ 64
    let adj := adj / divisor
    if spd = LinkSpd.s25GRS then do
      let v ← sbRead hw port PhyReg.rx40to160Cnt
      let rx_cycle := v &&& hw.rxcycMask40
      if rx_cycle ≠ 0 then do
        let mult2 := u64ofInt ((4 - (rx_cycle : Int)) * 40)
        let ca := tu_per_sec / 125
        let ca := ca * mult2 % 2 ^ 64
        let ca := ca / divisor
        pure ((adj + ca) % 2 ^ 64)
      else pure adj
    else if spd = LinkSpd.s50GRS then do
      let v ← sbRead hw port PhyReg.rx80to160Cnt
      let rx_cycle := v &&& hw.rxcycMask80
      if rx_cycle ≠ 0 then do
        let mult2 := rx_cycle * 40
        let ca := tu_per_sec / 125
        let ca := ca * mult2 % 2 ^ 64
        let ca := ca / divisor
        pure ((adj + ca) % 2 ^ 64)
      else pure adj
    else pure adj

/-- The total-Rx-offset computation of `ice_phy_cfg_rx_offset_e822` (the part
after the guards and the speed/FEC decode): the fixed offset plus the first
Vernier register (always), plus the second Vernier register for the
multi-lane speeds, plus the PMD adjustment for RS-FEC or minus it for every
other FEC mode (u64 two's-complement subtraction). -/
def rx_total_mid (hw : Hw) (port : Nat) (sf : LinkSpd × FecMode) : M Nat := do
  let spd := sf.1
  let fec := sf.2
  let total := ice_calc_fixed_rx_offset_e822 hw spd
  let v ← ice_read_64b_phy_reg_e822 hw port
    PhyReg.parPcsRxOffsetL PhyReg.parPcsRxOffsetU
  let total := (total + v) % 2 ^ 64
  let total ← (if spd = LinkSpd.s40G ∨ spd = LinkSpd.s50G ∨
      spd = LinkSpd.s50GRS ∨ spd = LinkSpd.s100GRS then do
      let v2 ← ice_read_64b_phy_reg_e822 hw port
        PhyReg.parRxTimeL PhyReg.parRxTimeU
      pure ((total + v2) % 2 ^ 64)
    else pure total)
  let pmd ← ice_phy_calc_pmd_adj_e822 hw port spd fec
  pure (if fec = FecMode.rs then (total + pmd) % 2 ^ 64
    else (total + (2 ^ 64 - pmd % 2 ^ 64)) % 2 ^ 64)

/-- The programming tail of `ice_phy_cfg_rx_offset_e822`. -/
def ice_phy_cfg_rx_offset_e822_prog (hw : Hw) (port : Nat) : M Unit := do
  let sf ← ice_phy_get_speed_and_fec_e822 hw port
  let total ← rx_total_mid hw port sf
  ice_write_64b_phy_reg_e822 hw port
    PhyReg.totalRxOffsetL PhyReg.totalRxOffsetU total
  sbWrite hw port PhyReg.rxOr 1

/-- `ice_phy_cfg_rx_offset_e822`: guarded like the Tx variant on
`P_REG_RX_OR` / `P_REG_RX_OV_STATUS`, then programs the total Rx offset and
sets the ready flag. -/
def ice_phy_cfg_rx_offset_e822 (hw : Hw) (port : Nat) : M Unit := do
  let reg ← sbRead hw port PhyReg.rxOr
  if reg ≠ 0 then pure ()
  else do
    let reg2 ← sbRead hw port PhyReg.rxOvStatus
    if reg2 &&& hw.rxOvMask = 0 then throwM (-16)
    else ice_phy_cfg_rx_offset_e822_prog hw port

/-- `ice_calc_fixed_tx_offset_eth56g`: the ETH56G fixed Tx offset is the
constant zero. -/
def ice_calc_fixed_tx_offset_eth56g (_hw : Hw) (_spd : LinkSpd) : Nat := 0

/-- `ice_calc_fixed_rx_offset_eth56g`: the ETH56G fixed Rx offset is the
constant zero. -/
def ice_calc_fixed_rx_offset_eth56g (_hw : Hw) (_spd : LinkSpd) : Nat := 0

/-- `ice_phy_cfg_tx_offset_eth56g`: program the (zero) fixed total Tx offset
and set the Tx offset-ready flag — with no readiness check and no guard
against reprogramming. -/
def ice_phy_cfg_tx_offset_eth56g (hw : Hw) (port : Nat) : M Unit := do
  let total := ice_calc_fixed_tx_offset_eth56g hw LinkSpd.s10G
  ice_write_64b_phy_reg_eth56g hw port
    PhyReg.totalTxOffsetL PhyReg.totalTxOffsetU total
  sbWrite hw port PhyReg.txOffsetReady 1

/-- `ice_phy_cfg_rx_offset_eth56g`: program the (zero) fixed total Rx offset
and set the Rx offset-ready flag — with no readiness check and no guard
against reprogramming. -/
def ice_phy_cfg_rx_offset_eth56g (hw : Hw) (port : Nat) : M Unit := do
  let total := ice_calc_fixed_rx_offset_eth56g hw LinkSpd.s10G
  ice_write_64b_phy_reg_eth56g hw port
    PhyReg.totalRxOffsetL PhyReg.totalRxOffsetU total
  sbWrite hw port PhyReg.rxOffsetReady 1

theorem emitsOnly_ite {α : Type} {c : Prop} [Decidable c] {x y : M α} {P : Ev → Bool}
    (hx : EmitsOnly x P) (hy : EmitsOnly y P) : EmitsOnly (if c then x else y) P := by
  by_cases h : c
  · rwa [if_pos h]
  · rwa [if_neg h]

theorem emitsOnly_speed_fec (hw : Hw) (port : Nat) :
    EmitsOnly (ice_phy_get_speed_and_fec_e822 hw port) (fun _ => true) := by
  unfold ice_phy_get_speed_and_fec_e822
  exact emitsOnly_bind (emitsOnly_sbRead _ _ _ rfl) fun serdes =>
    emitsOnly_ite
      (emitsOnly_ite (emitsOnly_pure _ _)
        (emitsOnly_ite (emitsOnly_pure _ _)
          (emitsOnly_ite (emitsOnly_pure _ _) (emitsOnly_throwM _ _))))
      (emitsOnly_ite (emitsOnly_pure _ _)
        (emitsOnly_ite (emitsOnly_pure _ _)
          (emitsOnly_ite (emitsOnly_pure _ _)
            (emitsOnly_ite (emitsOnly_pure _ _)
              (emitsOnly_ite (emitsOnly_pure _ _) (emitsOnly_throwM _ _))))))

theorem emitsOnly_read64 (hw : Hw) (port : Nat) (lo hi : PhyReg) :
    EmitsOnly (ice_read_64b_phy_reg_e822 hw port lo hi) (fun _ => true) :=
  emitsOnly_bind (emitsOnly_sbRead _ _ _ rfl) fun _ =>
    emitsOnly_bind (emitsOnly_sbRead _ _ _ rfl) fun _ => emitsOnly_pure _ _

theorem emitsOnly_pmd_adj (hw : Hw) (port : Nat) (spd : LinkSpd) (fec : FecMode) :
    EmitsOnly (ice_phy_calc_pmd_adj_e822 hw port spd fec) (fun _ => true) := by
  unfold ice_phy_calc_pmd_adj_e822
  exact emitsOnly_bind (emitsOnly_sbRead _ _ _ rfl) fun val =>
    emitsOnly_ite (emitsOnly_pure _ _)
      (emitsOnly_ite
        (emitsOnly_bind (emitsOnly_sbRead _ _ _ rfl) fun v =>
          emitsOnly_ite (emitsOnly_pure _ _) (emitsOnly_pure _ _))
        (emitsOnly_ite
          (emitsOnly_bind (emitsOnly_sbRead _ _ _ rfl) fun v =>
            emitsOnly_ite (emitsOnly_pure _ _) (emitsOnly_pure _ _))
          (emitsOnly_pure _ _)))

/-- Success and nothing touched when the Tx offset-ready flag is already
set: the `reg != 0` early return of `ice_phy_cfg_tx_offset_e822`. -/
theorem cfg_tx_offset_e822_done (hw : Hw) (port : Nat) (s : S)
    (hff : ∀ n, hw.sbFail n = none) (h : regVal hw s port PhyReg.txOr ≠ 0) :
    runM (ice_phy_cfg_tx_offset_e822 hw port) s =
      (Except.ok (), { s with tr := s.tr ++ [Ev.rdPhy port PhyReg.txOr], n := s.n + 1 }) := by
  show (sbRead hw port PhyReg.txOr >>= fun reg =>
    if reg ≠ 0 then pure () else _) s = _
  rw [bind_def, sbRead_ok (hff s.n)]
  simp only []
  rw [if_pos h]
  rfl

/-- Busy error and nothing touched while the Tx offset-valid bit is clear. -/
theorem cfg_tx_offset_e822_busy (hw : Hw) (port : Nat) (s : S)
    (hff : ∀ n, hw.sbFail n = none) (h0 : regVal hw s port PhyReg.txOr = 0)
    (h1 : regVal hw s port PhyReg.txOvStatus &&& hw.txOvMask = 0) :
    runM (ice_phy_cfg_tx_offset_e822 hw port) s =
      (Except.error (-16), { s with
        tr := s.tr ++ [Ev.rdPhy port PhyReg.txOr] ++ [Ev.rdPhy port PhyReg.txOvStatus]
        n := s.n + 1 + 1 }) := by
  show (sbRead hw port PhyReg.txOr >>= fun reg =>
    if reg ≠ 0 then pure () else (sbRead hw port PhyReg.txOvStatus >>= fun reg2 =>
      if reg2 &&& hw.txOvMask = 0 then throwM (-16) else _)) s = _
  rw [bind_def, sbRead_ok (hff s.n)]
  simp only []
  rw [if_neg (by simp [h0]), bind_def, sbRead_ok (hff _)]
  simp only []
  split_ifs with hcond
  · rfl
  · exact absurd h1 hcond

/-- The symmetric early-return lemma for the Rx variant. -/
theorem cfg_rx_offset_e822_done (hw : Hw) (port : Nat) (s : S)
    (hff : ∀ n, hw.sbFail n = none) (h : regVal hw s port PhyReg.rxOr ≠ 0) :
    runM (ice_phy_cfg_rx_offset_e822 hw port) s =
      (Except.ok (), { s with tr := s.tr ++ [Ev.rdPhy port PhyReg.rxOr], n := s.n + 1 }) := by
  show (sbRead hw port PhyReg.rxOr >>= fun reg =>
    if reg ≠ 0 then pure () else _) s = _
  rw [bind_def, sbRead_ok (hff s.n)]
  simp only []
  rw [if_pos h]
  rfl

/-- The symmetric busy lemma for the Rx variant. -/
theorem cfg_rx_offset_e822_busy (hw : Hw) (port : Nat) (s : S)
    (hff : ∀ n, hw.sbFail n = none) (h0 : regVal hw s port PhyReg.rxOr = 0)
    (h1 : regVal hw s port PhyReg.rxOvStatus &&& hw.rxOvMask = 0) :
    runM (ice_phy_cfg_rx_offset_e822 hw port) s =
      (Except.error (-16), { s with
        tr := s.tr ++ [Ev.rdPhy port PhyReg.rxOr] ++ [Ev.rdPhy port PhyReg.rxOvStatus]
        n := s.n + 1 + 1 }) := by
  show (sbRead hw port PhyReg.rxOr >>= fun reg =>
    if reg ≠ 0 then pure () else (sbRead hw port PhyReg.rxOvStatus >>= fun reg2 =>
      if reg2 &&& hw.rxOvMask = 0 then throwM (-16) else _)) s = _
  rw [bind_def, sbRead_ok (hff s.n)]
  simp only []
  rw [if_neg (by simp [h0]), bind_def, sbRead_ok (hff _)]
  simp only []
  split_ifs with hcond
  · rfl
  · exact absurd h1 hcond

theorem emitsOnly_tx_total_mid (hw : Hw) (port : Nat) (sf : LinkSpd × FecMode) :
    EmitsOnly (tx_total_mid hw port sf) (fun _ => true) := by
  unfold tx_total_mid
  exact emitsOnly_bind
    (emitsOnly_ite
      (emitsOnly_bind (emitsOnly_read64 _ _ _ _) fun _ => emitsOnly_pure _ _)
      (emitsOnly_pure _ _))
    fun total => emitsOnly_ite
      (emitsOnly_bind (emitsOnly_read64 _ _ _ _) fun _ => emitsOnly_pure _ _)
      (emitsOnly_pure _ _)

theorem emitsOnly_rx_total_mid (hw : Hw) (port : Nat) (sf : LinkSpd × FecMode) :
    EmitsOnly (rx_total_mid hw port sf) (fun _ => true) := by
  unfold rx_total_mid
  exact emitsOnly_bind (emitsOnly_read64 _ _ _ _) fun v =>
    emitsOnly_bind
      (emitsOnly_ite
        (emitsOnly_bind (emitsOnly_read64 _ _ _ _) fun _ => emitsOnly_pure _ _)
        (emitsOnly_pure _ _))
      fun total => emitsOnly_bind (emitsOnly_pmd_adj _ _ _ _) fun pmd =>
        emitsOnly_pure _ _

/-- After the two guards pass (ready flag clear, offset-valid bit set), the
Tx configuration runs its programming tail on the twice-bumped state. -/
theorem cfg_tx_offset_e822_to_prog (hw : Hw) (port : Nat) (s : S)
    (hff : ∀ n, hw.sbFail n = none) (h0 : regVal hw s port PhyReg.txOr = 0)
    (h1 : ¬ regVal hw s port PhyReg.txOvStatus &&& hw.txOvMask = 0) :
    ice_phy_cfg_tx_offset_e822 hw port s =
      ice_phy_cfg_tx_offset_e822_prog hw port
        { s with tr := s.tr ++ [Ev.rdPhy port PhyReg.txOr] ++
            [Ev.rdPhy port PhyReg.txOvStatus], n := s.n + 1 + 1 } := by
  show (sbRead hw port PhyReg.txOr >>= fun reg =>
    if reg ≠ 0 then pure () else (sbRead hw port PhyReg.txOvStatus >>= fun reg2 =>
      if reg2 &&& hw.txOvMask = 0 then throwM (-16)
      else ice_phy_cfg_tx_offset_e822_prog hw port)) s = _
  rw [bind_def, sbRead_ok (hff s.n)]
  simp only []
  rw [if_neg (by simp [h0]), bind_def, sbRead_ok (hff _)]
  simp only []
  split_ifs with hcond
  · exact absurd hcond h1
  · rfl

/-- The Rx analogue of `cfg_tx_offset_e822_to_prog`. -/
theorem cfg_rx_offset_e822_to_prog (hw : Hw) (port : Nat) (s : S)
    (hff : ∀ n, hw.sbFail n = none) (h0 : regVal hw s port PhyReg.rxOr = 0)
    (h1 : ¬ regVal hw s port PhyReg.rxOvStatus &&& hw.rxOvMask = 0) :
    ice_phy_cfg_rx_offset_e822 hw port s =
      ice_phy_cfg_rx_offset_e822_prog hw port
        { s with tr := s.tr ++ [Ev.rdPhy port PhyReg.rxOr] ++
            [Ev.rdPhy port PhyReg.rxOvStatus], n := s.n + 1 + 1 } := by
  show (sbRead hw port PhyReg.rxOr >>= fun reg =>
    if reg ≠ 0 then pure () else (sbRead hw port PhyReg.rxOvStatus >>= fun reg2 =>
      if reg2 &&& hw.rxOvMask = 0 then throwM (-16)
      else ice_phy_cfg_rx_offset_e822_prog hw port)) s = _
  rw [bind_def, sbRead_ok (hff s.n)]
  simp only []
  rw [if_neg (by simp [h0]), bind_def, sbRead_ok (hff _)]
  simp only []
  split_ifs with hcond
  · exact absurd hcond h1
  · rfl

/-- Successful programming of the Tx offset: the ready flag register ends at
1 and a write of the low total-offset register appears in the events of the
call. -/
theorem cfg_tx_offset_e822_program (hw : Hw) (port : Nat) (s : S)
    (hff : ∀ n, hw.sbFail n = none)
    (h0 : regVal hw s port PhyReg.txOr = 0)
    (hok : (runM (ice_phy_cfg_tx_offset_e822 hw port) s).1 = Except.ok ()) :
    regVal hw (runM (ice_phy_cfg_tx_offset_e822 hw port) s).2 port PhyReg.txOr = 1 ∧
    ∃ v, Ev.wrPhy port PhyReg.totalTxOffsetL v ∈
      (runM (ice_phy_cfg_tx_offset_e822 hw port) s).2.tr.drop s.tr.length := by
  by_cases h1 : regVal hw s port PhyReg.txOvStatus &&& hw.txOvMask = 0
  · rw [cfg_tx_offset_e822_busy hw port s hff h0 h1] at hok
    exact absurd hok (by simp)
  · have hstep := cfg_tx_offset_e822_to_prog hw port s hff h0 h1
    set s2 : S := { s with tr := s.tr ++ [Ev.rdPhy port PhyReg.txOr] ++
        [Ev.rdPhy port PhyReg.txOvStatus], n := s.n + 1 + 1 } with hs2
    rcases hd : ice_phy_get_speed_and_fec_e822 hw port s2 with ⟨rd, s3⟩
    obtain ⟨δd, hδd, _⟩ := emitsOnly_speed_fec hw port s2 _ _ hd
    cases rd with
    | error e =>
        have herr : ice_phy_cfg_tx_offset_e822_prog hw port s2 = (Except.error e, s3) := by
          show ((ice_phy_get_speed_and_fec_e822 hw port) >>= fun sf =>
            tx_total_mid hw port sf >>= fun total =>
            ice_write_64b_phy_reg_e822 hw port
              PhyReg.totalTxOffsetL PhyReg.totalTxOffsetU total >>= fun _ =>
            sbWrite hw port PhyReg.txOr 1) s2 = _
          rw [bind_def, hd]
        rw [runM, hstep, herr] at hok
        exact absurd hok (by simp)
    | ok sf =>
        have hstep2 : ice_phy_cfg_tx_offset_e822_prog hw port s2 =
            (tx_total_mid hw port sf >>= fun total =>
              ice_write_64b_phy_reg_e822 hw port
                PhyReg.totalTxOffsetL PhyReg.totalTxOffsetU total >>= fun _ =>
              sbWrite hw port PhyReg.txOr 1) s3 := by
          show ((ice_phy_get_speed_and_fec_e822 hw port) >>= fun sf =>
            tx_total_mid hw port sf >>= fun total =>
            ice_write_64b_phy_reg_e822 hw port
              PhyReg.totalTxOffsetL PhyReg.totalTxOffsetU total >>= fun _ =>
            sbWrite hw port PhyReg.txOr 1) s2 = _
          rw [bind_def, hd]
        rcases hm : tx_total_mid hw port sf s3 with ⟨rm, s4⟩
        obtain ⟨δm, hδm, _⟩ := emitsOnly_tx_total_mid hw port sf s3 _ _ hm
        cases rm with
        | error e =>
            have herr : (tx_total_mid hw port sf >>= fun total =>
                ice_write_64b_phy_reg_e822 hw port
                  PhyReg.totalTxOffsetL PhyReg.totalTxOffsetU total >>= fun _ =>
                sbWrite hw port PhyReg.txOr 1) s3 = (Except.error e, s4) := by
              rw [bind_def, hm]
            rw [runM, hstep, hstep2, herr] at hok
            exact absurd hok (by simp)
        | ok total =>
            have hstep3 : (tx_total_mid hw port sf >>= fun total =>
                ice_write_64b_phy_reg_e822 hw port
                  PhyReg.totalTxOffsetL PhyReg.totalTxOffsetU total >>= fun _ =>
                sbWrite hw port PhyReg.txOr 1) s3 =
                (ice_write_64b_phy_reg_e822 hw port
                  PhyReg.totalTxOffsetL PhyReg.totalTxOffsetU total >>= fun _ =>
                sbWrite hw port PhyReg.txOr 1) s4 := by
              rw [bind_def, hm]
            have htail : (ice_write_64b_phy_reg_e822 hw port
                PhyReg.totalTxOffsetL PhyReg.totalTxOffsetU total >>= fun _ =>
                sbWrite hw port PhyReg.txOr 1) s4 =
                (Except.ok (), { s4 with
                  tr := s4.tr ++ [Ev.wrPhy port PhyReg.totalTxOffsetL (lo32 total)] ++
                    [Ev.wrPhy port PhyReg.totalTxOffsetU (hi32 total)] ++
                    [Ev.wrPhy port PhyReg.txOr 1]
                  regs := fun p r => if p = port ∧ r = PhyReg.txOr then some 1 else
                    (fun p r => if p = port ∧ r = PhyReg.totalTxOffsetU
                        then some (hi32 total) else
                      (fun p r => if p = port ∧ r = PhyReg.totalTxOffsetL
                          then some (lo32 total) else s4.regs p r) p r) p r
                  n := s4.n + 1 + 1 + 1 }) := by
              show (((sbWrite hw port PhyReg.totalTxOffsetL (lo32 total)) >>= fun _ =>
                sbWrite hw port PhyReg.totalTxOffsetU (hi32 total)) >>= fun _ =>
                sbWrite hw port PhyReg.txOr 1) s4 = _
              rw [bind_def, bind_def, sbWrite_ok (hff _)]
              simp only []
              rw [sbWrite_ok (hff _)]
              simp only []
              rw [sbWrite_ok (hff _)]
            rw [runM, hstep, hstep2, hstep3, htail]
            constructor
            · simp [regVal]
            · refine ⟨lo32 total, ?_⟩
              have hs4tr : s4.tr = s.tr ++
                  ([Ev.rdPhy port PhyReg.txOr] ++ [Ev.rdPhy port PhyReg.txOvStatus] ++
                    δd ++ δm) := by
                rw [hδm, hδd]
                show (s.tr ++ [Ev.rdPhy port PhyReg.txOr] ++
                  [Ev.rdPhy port PhyReg.txOvStatus]) ++ δd ++ δm = _
                simp [List.append_assoc]
              show Ev.wrPhy port PhyReg.totalTxOffsetL (lo32 total) ∈
                ((s4.tr ++ _ ++ _ ++ _).drop s.tr.length)
              rw [hs4tr]
              rw [List.append_assoc, List.append_assoc, List.append_assoc,
                List.drop_left]
              simp

/-- Successful programming of the Rx offset: the ready flag register ends at
1 and a write of the low total-offset register appears in the events of the
call. -/
theorem cfg_rx_offset_e822_program (hw : Hw) (port : Nat) (s : S)
    (hff : ∀ n, hw.sbFail n = none)
    (h0 : regVal hw s port PhyReg.rxOr = 0)
    (hok : (runM (ice_phy_cfg_rx_offset_e822 hw port) s).1 = Except.ok ()) :
    regVal hw (runM (ice_phy_cfg_rx_offset_e822 hw port) s).2 port PhyReg.rxOr = 1 ∧
    ∃ v, Ev.wrPhy port PhyReg.totalRxOffsetL v ∈
      (runM (ice_phy_cfg_rx_offset_e822 hw port) s).2.tr.drop s.tr.length := by
  by_cases h1 : regVal hw s port PhyReg.rxOvStatus &&& hw.rxOvMask = 0
  · rw [cfg_rx_offset_e822_busy hw port s hff h0 h1] at hok
    exact absurd hok (by simp)
  · have hstep := cfg_rx_offset_e822_to_prog hw port s hff h0 h1
    set s2 : S := { s with tr := s.tr ++ [Ev.rdPhy port PhyReg.rxOr] ++
        [Ev.rdPhy port PhyReg.rxOvStatus], n := s.n + 1 + 1 } with hs2
    rcases hd : ice_phy_get_speed_and_fec_e822 hw port s2 with ⟨rd, s3⟩
    obtain ⟨δd, hδd, _⟩ := emitsOnly_speed_fec hw port s2 _ _ hd
    cases rd with
    | error e =>
        have herr : ice_phy_cfg_rx_offset_e822_prog hw port s2 = (Except.error e, s3) := by
          show ((ice_phy_get_speed_and_fec_e822 hw port) >>= fun sf =>
            rx_total_mid hw port sf >>= fun total =>
            ice_write_64b_phy_reg_e822 hw port
              PhyReg.totalRxOffsetL PhyReg.totalRxOffsetU total >>= fun _ =>
            sbWrite hw port PhyReg.rxOr 1) s2 = _
          rw [bind_def, hd]
        rw [runM, hstep, herr] at hok
        exact absurd hok (by simp)
    | ok sf =>
        have hstep2 : ice_phy_cfg_rx_offset_e822_prog hw port s2 =
            (rx_total_mid hw port sf >>= fun total =>
              ice_write_64b_phy_reg_e822 hw port
                PhyReg.totalRxOffsetL PhyReg.totalRxOffsetU total >>= fun _ =>
              sbWrite hw port PhyReg.rxOr 1) s3 := by
          show ((ice_phy_get_speed_and_fec_e822 hw port) >>= fun sf =>
            rx_total_mid hw port sf >>= fun total =>
            ice_write_64b_phy_reg_e822 hw port
              PhyReg.totalRxOffsetL PhyReg.totalRxOffsetU total >>= fun _ =>
            sbWrite hw port PhyReg.rxOr 1) s2 = _
          rw [bind_def, hd]
        rcases hm : rx_total_mid hw port sf s3 with ⟨rm, s4⟩
        obtain ⟨δm, hδm, _⟩ := emitsOnly_rx_total_mid hw port sf s3 _ _ hm
        cases rm with
        | error e =>
            have herr : (rx_total_mid hw port sf >>= fun total =>
                ice_write_64b_phy_reg_e822 hw port
                  PhyReg.totalRxOffsetL PhyReg.totalRxOffsetU total >>= fun _ =>
                sbWrite hw port PhyReg.rxOr 1) s3 = (Except.error e, s4) := by
              rw [bind_def, hm]
            rw [runM, hstep, hstep2, herr] at hok
            exact absurd hok (by simp)
        | ok total =>
            have hstep3 : (rx_total_mid hw port sf >>= fun total =>
                ice_write_64b_phy_reg_e822 hw port
                  PhyReg.totalRxOffsetL PhyReg.totalRxOffsetU total >>= fun _ =>
                sbWrite hw port PhyReg.rxOr 1) s3 =
                (ice_write_64b_phy_reg_e822 hw port
                  PhyReg.totalRxOffsetL PhyReg.totalRxOffsetU total >>= fun _ =>
                sbWrite hw port PhyReg.rxOr 1) s4 := by
              rw [bind_def, hm]
            have htail : (ice_write_64b_phy_reg_e822 hw port
                PhyReg.totalRxOffsetL PhyReg.totalRxOffsetU total >>= fun _ =>
                sbWrite hw port PhyReg.rxOr 1) s4 =
                (Except.ok (), { s4 with
                  tr := s4.tr ++ [Ev.wrPhy port PhyReg.totalRxOffsetL (lo32 total)] ++
                    [Ev.wrPhy port PhyReg.totalRxOffsetU (hi32 total)] ++
                    [Ev.wrPhy port PhyReg.rxOr 1]
                  regs := fun p r => if p = port ∧ r = PhyReg.rxOr then some 1 else
                    (fun p r => if p = port ∧ r = PhyReg.totalRxOffsetU
                        then some (hi32 total) else
                      (fun p r => if p = port ∧ r = PhyReg.totalRxOffsetL
                          then some (lo32 total) else s4.regs p r) p r) p r
                  n := s4.n + 1 + 1 + 1 }) := by
              show (((sbWrite hw port PhyReg.totalRxOffsetL (lo32 total)) >>= fun _ =>
                sbWrite hw port PhyReg.totalRxOffsetU (hi32 total)) >>= fun _ =>
                sbWrite hw port PhyReg.rxOr 1) s4 = _
              rw [bind_def, bind_def, sbWrite_ok (hff _)]
              simp only []
              rw [sbWrite_ok (hff _)]
              simp only []
              rw [sbWrite_ok (hff _)]
            rw [runM, hstep, hstep2, hstep3, htail]
            constructor
            · simp [regVal]
            · refine ⟨lo32 total, ?_⟩
              have hs4tr : s4.tr = s.tr ++
                  ([Ev.rdPhy port PhyReg.rxOr] ++ [Ev.rdPhy port PhyReg.rxOvStatus] ++
                    δd ++ δm) := by
                rw [hδm, hδd]
                show (s.tr ++ [Ev.rdPhy port PhyReg.rxOr] ++
                  [Ev.rdPhy port PhyReg.rxOvStatus]) ++ δd ++ δm = _
                simp [List.append_assoc]
              show Ev.wrPhy port PhyReg.totalRxOffsetL (lo32 total) ∈
                ((s4.tr ++ _ ++ _ ++ _).drop s.tr.length)
              rw [hs4tr]
              rw [List.append_assoc, List.append_assoc, List.append_assoc,
                List.drop_left]
              simp

/-- C4 counterexample: on the ETH56G lane PHY, `ice_phy_cfg_tx_offset_eth56g`
called on a device whose registers (including any offset-valid bit) all read
zero does not return the busy error — it succeeds and writes the total-offset
and ready-flag registers unconditionally, on every call. -/
theorem C4_counterexample_eth56g_no_busy_gate :
    (runM (ice_phy_cfg_tx_offset_eth56g { phyModel := PhyModel.eth56g } 0) {}).1 =
      Except.ok () ∧
    (runM (ice_phy_cfg_tx_offset_eth56g { phyModel := PhyModel.eth56g } 0) {}).2.tr =
      [Ev.wrPhy 0 PhyReg.totalTxOffsetL 0, Ev.wrPhy 0 PhyReg.totalTxOffsetU 0,
       Ev.wrPhy 0 PhyReg.txOffsetReady 1] := by
  exact ⟨by decide, by decide⟩

/-- C4 (amended, E822 family): with a fault-free transport, (a) while the
ready flag is clear and the hardware offset-valid bit is clear every call
returns `-EBUSY` and modifies no register; (b) once the valid bit is set, a
successful call programs the total-offset register, sets the ready flag to 1,
and every subsequent call returns success without modifying any register;
(c) a call with the ready flag already set succeeds without modifying any
register.  Both for the Tx and the Rx configuration. -/
theorem C4_e822_offset_busy_then_program_once (hw : Hw) (port : Nat) (s : S)
    (hff : ∀ n, hw.sbFail n = none) :
    (regVal hw s port PhyReg.txOr ≠ 0 →
      (runM (ice_phy_cfg_tx_offset_e822 hw port) s).1 = Except.ok () ∧
      (runM (ice_phy_cfg_tx_offset_e822 hw port) s).2.regs = s.regs) ∧
    (regVal hw s port PhyReg.txOr = 0 →
      regVal hw s port PhyReg.txOvStatus &&& hw.txOvMask = 0 →
      (runM (ice_phy_cfg_tx_offset_e822 hw port) s).1 = Except.error (-16) ∧
      (runM (ice_phy_cfg_tx_offset_e822 hw port) s).2.regs = s.regs) ∧
    (regVal hw s port PhyReg.txOr = 0 →
      (runM (ice_phy_cfg_tx_offset_e822 hw port) s).1 = Except.ok () →
      regVal hw (runM (ice_phy_cfg_tx_offset_e822 hw port) s).2 port PhyReg.txOr = 1 ∧
      (∃ v, Ev.wrPhy port PhyReg.totalTxOffsetL v ∈
        (runM (ice_phy_cfg_tx_offset_e822 hw port) s).2.tr.drop s.tr.length) ∧
      (runM (ice_phy_cfg_tx_offset_e822 hw port)
        (runM (ice_phy_cfg_tx_offset_e822 hw port) s).2).1 = Except.ok () ∧
      (runM (ice_phy_cfg_tx_offset_e822 hw port)
          (runM (ice_phy_cfg_tx_offset_e822 hw port) s).2).2.regs =
        (runM (ice_phy_cfg_tx_offset_e822 hw port) s).2.regs) ∧
    (regVal hw s port PhyReg.rxOr ≠ 0 →
      (runM (ice_phy_cfg_rx_offset_e822 hw port) s).1 = Except.ok () ∧
      (runM (ice_phy_cfg_rx_offset_e822 hw port) s).2.regs = s.regs) ∧
    (regVal hw s port PhyReg.rxOr = 0 →
      regVal hw s port PhyReg.rxOvStatus &&& hw.rxOvMask = 0 →
      (runM (ice_phy_cfg_rx_offset_e822 hw port) s).1 = Except.error (-16) ∧
      (runM (ice_phy_cfg_rx_offset_e822 hw port) s).2.regs = s.regs) ∧
    (regVal hw s port PhyReg.rxOr = 0 →
      (runM (ice_phy_cfg_rx_offset_e822 hw port) s).1 = Except.ok () →
      regVal hw (runM (ice_phy_cfg_rx_offset_e822 hw port) s).2 port PhyReg.rxOr = 1 ∧
      (∃ v, Ev.wrPhy port PhyReg.totalRxOffsetL v ∈
        (runM (ice_phy_cfg_rx_offset_e822 hw port) s).2.tr.drop s.tr.length) ∧
      (runM (ice_phy_cfg_rx_offset_e822 hw port)
        (runM (ice_phy_cfg_rx_offset_e822 hw port) s).2).1 = Except.ok () ∧
      (runM (ice_phy_cfg_rx_offset_e822 hw port)
          (runM (ice_phy_cfg_rx_offset_e822 hw port) s).2).2.regs =
        (runM (ice_phy_cfg_rx_offset_e822 hw port) s).2.regs) := by
  refine ⟨?_, ?_, ?_, ?_, ?_, ?_⟩
  · intro h
    rw [cfg_tx_offset_e822_done hw port s hff h]
    exact ⟨rfl, rfl⟩
  · intro h0 h1
    rw [cfg_tx_offset_e822_busy hw port s hff h0 h1]
    exact ⟨rfl, rfl⟩
  · intro h0 hok
    obtain ⟨hflag, hwr⟩ := cfg_tx_offset_e822_program hw port s hff h0 hok
    refine ⟨hflag, hwr, ?_, ?_⟩
    · rw [cfg_tx_offset_e822_done hw port _ hff (by rw [hflag]; decide)]
    · rw [cfg_tx_offset_e822_done hw port _ hff (by rw [hflag]; decide)]
  · intro h
    rw [cfg_rx_offset_e822_done hw port s hff h]
    exact ⟨rfl, rfl⟩
  · intro h0 h1
    rw [cfg_rx_offset_e822_busy hw port s hff h0 h1]
    exact ⟨rfl, rfl⟩
  · intro h0 hok
    obtain ⟨hflag, hwr⟩ := cfg_rx_offset_e822_program hw port s hff h0 hok
    refine ⟨hflag, hwr, ?_, ?_⟩
    · rw [cfg_rx_offset_e822_done hw port _ hff (by rw [hflag]; decide)]
    · rw [cfg_rx_offset_e822_done hw port _ hff (by rw [hflag]; decide)]

/-- Fixture for the C4 witness: an E822 device with the offset-valid bits
set, a decodable 10 GbE serdes word and a fault-free transport. -/
def hwC4 : Hw :=
  { phyModel := PhyModel.e822
    serdesMask := 0xFF
    serdes1G := 1, serdes10G := 2, serdes25G := 3
    serdes40G := 4, serdes50G := 5, serdes100G := 6
    phyInit := fun _ r =>
      match r with
      | PhyReg.txOvStatus => 1
      | PhyReg.rxOvStatus => 1
      | PhyReg.linkSpeed => 2
      | _ => 0 }

/-- Witness for C4 at a concrete input: on the fixture, the first Tx call
programs the offset and the conclusions of the amended theorem hold. -/
theorem C4_witness :
    (regVal hwC4 {} 0 PhyReg.txOr = 0 ∧
      (runM (ice_phy_cfg_tx_offset_e822 hwC4 0) {}).1 = Except.ok ()) ∧
    (regVal hwC4 (runM (ice_phy_cfg_tx_offset_e822 hwC4 0) {}).2 0 PhyReg.txOr = 1 ∧
      (∃ v, Ev.wrPhy 0 PhyReg.totalTxOffsetL v ∈
        (runM (ice_phy_cfg_tx_offset_e822 hwC4 0) {}).2.tr.drop (S.tr {}).length) ∧
      (runM (ice_phy_cfg_tx_offset_e822 hwC4 0)
        (runM (ice_phy_cfg_tx_offset_e822 hwC4 0) {}).2).1 = Except.ok () ∧
      (runM (ice_phy_cfg_tx_offset_e822 hwC4 0)
          (runM (ice_phy_cfg_tx_offset_e822 hwC4 0) {}).2).2.regs =
        (runM (ice_phy_cfg_tx_offset_e822 hwC4 0) {}).2.regs) :=
  ⟨⟨by decide, by decide⟩,
    (C4_e822_offset_busy_then_program_once hwC4 0 {} (fun _ => rfl)).2.2.1
      (by decide) (by decide)⟩

/-! ## Claim C9 -/

/-- Pure mirror of the speed / FEC decode of
`ice_phy_get_speed_and_fec_e822`, as a function of the serdes word. -/
def decodeSpdFec (hw : Hw) (serdes : Nat) : Option (LinkSpd × FecMode) :=
  let fec := hw.fecOf serdes
  let sd := serdes &&& hw.serdesMask
  if fec = FecMode.rs then
    if sd = hw.serdes25G then some (LinkSpd.s25GRS, fec)
    else if sd = hw.serdes50G then some (LinkSpd.s50GRS, fec)
    else if sd = hw.serdes100G then some (LinkSpd.s100GRS, fec)
    else none
  else
    if sd = hw.serdes1G then some (LinkSpd.s1G, fec)
    else if sd = hw.serdes10G then some (LinkSpd.s10G, fec)
    else if sd = hw.serdes25G then some (LinkSpd.s25G, fec)
    else if sd = hw.serdes40G then some (LinkSpd.s40G, fec)
    else if sd = hw.serdes50G then some (LinkSpd.s50G, fec)
    else none

/-- Value of a 64-bit register pair in a machine state. -/
def read64Spec (hw : Hw) (s : S) (port : Nat) (lo hi : PhyReg) : Nat :=
  regVal hw s port hi <<< 32 ||| regVal hw s port lo

/-- Pure mirror of the PMD alignment adjustment
(`ice_phy_calc_pmd_adj_e822`): the magnitude is derived from the observed
alignment counter per link speed, with the extra Rx-cycle-count term for the
25G-RS and 50G-RS speed classes. -/
def pmdAdjSpec (hw : Hw) (s : S) (port : Nat) (spd : LinkSpd) (fec : FecMode) : Nat :=
  let pmd_align := regVal hw s port PhyReg.pmdAlignment &&& 0xFF
  let tu_per_sec := hw.pllFreq * ice_ptp_read_src_incval hw % 2 ^ 64
  let divisor := (hw.vernier spd).pmdAdjDivisor
  let mult := pmd_adj_mult pmd_align spd fec
  if mult = 0 then 0
  else
    let adj := tu_per_sec / 125 * mult % 2 ^ 64 / divisor
    if spd = LinkSpd.s25GRS then
      let rx_cycle := regVal hw s port PhyReg.rx40to160Cnt &&& hw.rxcycMask40
      if rx_cycle ≠ 0 then
        (adj + tu_per_sec / 125 * u64ofInt ((4 - (rx_cycle : Int)) * 40) % 2 ^ 64 /
          divisor) % 2 ^ 64
      else adj
    else if spd = LinkSpd.s50GRS then
      let rx_cycle := regVal hw s port PhyReg.rx80to160Cnt &&& hw.rxcycMask80
      if rx_cycle ≠ 0 then
        (adj + tu_per_sec / 125 * (rx_cycle * 40) % 2 ^ 64 / divisor) % 2 ^ 64
      else adj
    else adj

/-- Pure mirror of the Rx total offset before the PMD adjustment: fixed
offset plus first Vernier register, plus the second Vernier register for the
multi-lane speeds. -/
def rxBaseSpec (hw : Hw) (s : S) (port : Nat) (spd : LinkSpd) : Nat :=
  let total := ice_calc_fixed_rx_offset_e822 hw spd
  let total := (total +
    read64Spec hw s port PhyReg.parPcsRxOffsetL PhyReg.parPcsRxOffsetU) % 2 ^ 64
  if spd = LinkSpd.s40G ∨ spd = LinkSpd.s50G ∨
      spd = LinkSpd.s50GRS ∨ spd = LinkSpd.s100GRS then
    (total + read64Spec hw s port PhyReg.parRxTimeL PhyReg.parRxTimeU) % 2 ^ 64
  else total

/-- Characterization of the speed / FEC decode under a fault-free
transport. -/
theorem speed_fec_run (hw : Hw) (port : Nat) (s : S) (sf : LinkSpd × FecMode)
    (hff : ∀ n, hw.sbFail n = none)
    (hdec : decodeSpdFec hw (regVal hw s port PhyReg.linkSpeed) = some sf) :
    ice_phy_get_speed_and_fec_e822 hw port s = (Except.ok sf,
      { s with tr := s.tr ++ [Ev.rdPhy port PhyReg.linkSpeed], n := s.n + 1 }) := by
  unfold decodeSpdFec at hdec
  unfold ice_phy_get_speed_and_fec_e822
  rw [bind_def, sbRead_ok (hff _)]
  simp only []
  split_ifs at hdec ⊢ <;> simp_all [pure_def, throwM]

/-- Characterization of a 64-bit register pair read under a fault-free
transport. -/
theorem read64_run (hw : Hw) (port : Nat) (lo hi : PhyReg) (s : S)
    (hff : ∀ n, hw.sbFail n = none) :
    ice_read_64b_phy_reg_e822 hw port lo hi s =
      (Except.ok (read64Spec hw s port lo hi),
        { s with tr := s.tr ++ [Ev.rdPhy port lo] ++ [Ev.rdPhy port hi]
                 n := s.n + 1 + 1 }) := by
  unfold ice_read_64b_phy_reg_e822 read64Spec
  rw [bind_def, sbRead_ok (hff _)]
  simp only []
  rw [bind_def, sbRead_ok (hff _)]
  simp only []
  rfl

/-- Characterization of the PMD adjustment computation under a fault-free
transport: it returns the pure `pmdAdjSpec` value and modifies no register. -/
theorem pmd_adj_run (hw : Hw) (port : Nat) (spd : LinkSpd) (fec : FecMode) (s : S)
    (hff : ∀ n, hw.sbFail n = none) :
    ∃ s', ice_phy_calc_pmd_adj_e822 hw port spd fec s =
      (Except.ok (pmdAdjSpec hw s port spd fec), s') ∧ s'.regs = s.regs := by
  unfold ice_phy_calc_pmd_adj_e822 pmdAdjSpec
  rw [bind_def, sbRead_ok (hff _)]
  simp only [regVal]
  split_ifs with h1 h2 h3 <;>
    first
      | exact ⟨_, rfl, rfl⟩
      | (rw [bind_def, sbRead_ok (hff _)]
         simp only [regVal]
         split_ifs
         all_goals exact ⟨_, rfl, rfl⟩)

theorem bind_assoc_M {α β γ : Type} (x : M α) (f : α → M β) (g : β → M γ) :
    (x >>= f) >>= g = x >>= fun a => f a >>= g := by
  funext s
  show (match (x >>= f) s with
      | (Except.ok b, t) => g b t
      | (Except.error e, t) => (Except.error e, t)) =
    (match x s with
      | (Except.ok a, t) => (f a >>= g) t
      | (Except.error e, t) => (Except.error e, t))
  rw [bind_def]
  rcases hx : x s with ⟨r, t0⟩
  cases r with
  | ok a =>
      simp only []
      rw [bind_def]
  | error e => rfl

theorem pure_bind_M {α β : Type} (a : α) (f : α → M β) (s : S) :
    ((pure a : M α) >>= f) s = f a s := rfl

theorem read64_bind {α : Type} (hw : Hw) (port : Nat) (lo hi : PhyReg)
    {f : Nat → M α} (s : S) (hff : ∀ n, hw.sbFail n = none) :
    (ice_read_64b_phy_reg_e822 hw port lo hi >>= f) s =
      f (read64Spec hw s port lo hi)
        { s with tr := s.tr ++ [Ev.rdPhy port lo] ++ [Ev.rdPhy port hi]
                 n := s.n + 1 + 1 } := by
  rw [bind_def, read64_run hw port lo hi s hff]

theorem pmd_bind {α : Type} (hw : Hw) (port : Nat) (spd : LinkSpd)
    (fec : FecMode) {f : Nat → M α} (s : S) (hff : ∀ n, hw.sbFail n = none) :
    ∃ s', (ice_phy_calc_pmd_adj_e822 hw port spd fec >>= f) s =
      f (pmdAdjSpec hw s port spd fec) s' ∧ s'.regs = s.regs := by
  obtain ⟨sp, hp, hpregs⟩ := pmd_adj_run hw port spd fec s hff
  exact ⟨sp, by rw [bind_def, hp], hpregs⟩

/-- Characterization of the Rx total-offset computation under a fault-free
transport: it returns the base offset plus the PMD adjustment for RS-FEC, or
minus it (u64 two's complement) for every other FEC mode, and modifies no
register. -/
theorem rx_total_mid_run (hw : Hw) (port : Nat) (spd : LinkSpd) (fec : FecMode)
    (s : S) (hff : ∀ n, hw.sbFail n = none) :
    ∃ s', rx_total_mid hw port (spd, fec) s =
      (Except.ok (if fec = FecMode.rs then
          (rxBaseSpec hw s port spd + pmdAdjSpec hw s port spd fec) % 2 ^ 64
        else
          (rxBaseSpec hw s port spd +
            (2 ^ 64 - pmdAdjSpec hw s port spd fec % 2 ^ 64)) % 2 ^ 64), s') ∧
      s'.regs = s.regs := by
  by_cases hsp : spd = LinkSpd.s40G ∨ spd = LinkSpd.s50G ∨
      spd = LinkSpd.s50GRS ∨ spd = LinkSpd.s100GRS
  · have hbase : rxBaseSpec hw s port spd =
        ((ice_calc_fixed_rx_offset_e822 hw spd +
          read64Spec hw s port PhyReg.parPcsRxOffsetL PhyReg.parPcsRxOffsetU) % 2 ^ 64 +
          read64Spec hw s port PhyReg.parRxTimeL PhyReg.parRxTimeU) % 2 ^ 64 := by
      unfold rxBaseSpec
      rw [if_pos hsp]
    unfold rx_total_mid
    rw [read64_bind hw port _ _ s hff]
    simp only []
    rw [if_pos hsp]
    rw [bind_assoc_M]
    rw [read64_bind hw port _ _ _ hff]
    simp only []
    rw [pure_bind_M]
    obtain ⟨sp, hps, hpregs⟩ := pmd_bind hw port spd fec
      (⟨(s.tr ++ [Ev.rdPhy port PhyReg.parPcsRxOffsetL] ++
          [Ev.rdPhy port PhyReg.parPcsRxOffsetU]) ++ [Ev.rdPhy port PhyReg.parRxTimeL] ++
          [Ev.rdPhy port PhyReg.parRxTimeU],
        s.regs, s.cgu, s.n + 1 + 1 + 1 + 1, s.k⟩ : S) hff
    rw [hps]
    refine ⟨sp, ?_, by rw [hpregs]⟩
    rw [hbase]
    rfl
  · have hbase : rxBaseSpec hw s port spd =
        (ice_calc_fixed_rx_offset_e822 hw spd +
          read64Spec hw s port PhyReg.parPcsRxOffsetL PhyReg.parPcsRxOffsetU) % 2 ^ 64 := by
      unfold rxBaseSpec
      rw [if_neg hsp]
    unfold rx_total_mid
    rw [read64_bind hw port _ _ s hff]
    simp only []
    rw [if_neg hsp]
    rw [pure_bind_M]
    obtain ⟨sp, hps, hpregs⟩ := pmd_bind hw port spd fec
      (⟨s.tr ++ [Ev.rdPhy port PhyReg.parPcsRxOffsetL] ++
          [Ev.rdPhy port PhyReg.parPcsRxOffsetU],
        s.regs, s.cgu, s.n + 1 + 1, s.k⟩ : S) hff
    rw [hps]
    refine ⟨sp, ?_, by rw [hpregs]⟩
    rw [hbase]
    rfl

/-- C9: for every port whose Rx offset-valid bit is set (and ready flag still
clear) on a fault-free transport, a call to `ice_phy_cfg_rx_offset_e822`
succeeds and programs the total Rx offset register pair with the base offset
plus the PMD adjustment when the FEC mode is RS-FEC and minus it (u64 two's
complement) for every other FEC mode — where the adjustment's magnitude
(`pmdAdjSpec`) is derived from the observed alignment counter per link speed,
with the extra Rx-cycle-count term for the 25G-RS and 50G-RS speed classes —
and sets the Rx offset-ready flag. -/
theorem C9_rx_offset_pmd_sign (hw : Hw) (port : Nat) (s : S) (spd : LinkSpd)
    (fec : FecMode) (hff : ∀ n, hw.sbFail n = none)
    (h0 : regVal hw s port PhyReg.rxOr = 0)
    (h1 : ¬ regVal hw s port PhyReg.rxOvStatus &&& hw.rxOvMask = 0)
    (hdec : decodeSpdFec hw (regVal hw s port PhyReg.linkSpeed) = some (spd, fec)) :
    (runM (ice_phy_cfg_rx_offset_e822 hw port) s).1 = Except.ok () ∧
    regVal hw (runM (ice_phy_cfg_rx_offset_e822 hw port) s).2 port
        PhyReg.totalRxOffsetL =
      lo32 (if fec = FecMode.rs then
          (rxBaseSpec hw s port spd + pmdAdjSpec hw s port spd fec) % 2 ^ 64
        else
          (rxBaseSpec hw s port spd +
            (2 ^ 64 - pmdAdjSpec hw s port spd fec % 2 ^ 64)) % 2 ^ 64) ∧
    regVal hw (runM (ice_phy_cfg_rx_offset_e822 hw port) s).2 port
        PhyReg.totalRxOffsetU =
      hi32 (if fec = FecMode.rs then
          (rxBaseSpec hw s port spd + pmdAdjSpec hw s port spd fec) % 2 ^ 64
        else
          (rxBaseSpec hw s port spd +
            (2 ^ 64 - pmdAdjSpec hw s port spd fec % 2 ^ 64)) % 2 ^ 64) ∧
    regVal hw (runM (ice_phy_cfg_rx_offset_e822 hw port) s).2 port PhyReg.rxOr = 1 := by
  have hstep := cfg_rx_offset_e822_to_prog hw port s hff h0 h1
  set s2 : S := { s with tr := s.tr ++ [Ev.rdPhy port PhyReg.rxOr] ++
      [Ev.rdPhy port PhyReg.rxOvStatus], n := s.n + 1 + 1 } with hs2
  have hd : ice_phy_get_speed_and_fec_e822 hw port s2 = (Except.ok (spd, fec),
      { s2 with tr := s2.tr ++ [Ev.rdPhy port PhyReg.linkSpeed], n := s2.n + 1 }) :=
    speed_fec_run hw port s2 (spd, fec) hff hdec
  set s3 : S := { s2 with
      tr := s2.tr ++ [Ev.rdPhy port PhyReg.linkSpeed]
      n := s2.n + 1 } with hs3
  obtain ⟨sm, hm, hmregs⟩ := rx_total_mid_run hw port spd fec s3 hff
  have hstep2 : ice_phy_cfg_rx_offset_e822_prog hw port s2 =
      (rx_total_mid hw port (spd, fec) >>= fun total =>
        ice_write_64b_phy_reg_e822 hw port
          PhyReg.totalRxOffsetL PhyReg.totalRxOffsetU total >>= fun _ =>
        sbWrite hw port PhyReg.rxOr 1) s3 := by
    show ((ice_phy_get_speed_and_fec_e822 hw port) >>= fun sf =>
      rx_total_mid hw port sf >>= fun total =>
      ice_write_64b_phy_reg_e822 hw port
        PhyReg.totalRxOffsetL PhyReg.totalRxOffsetU total >>= fun _ =>
      sbWrite hw port PhyReg.rxOr 1) s2 = _
    rw [bind_def, hd]
  set W : Nat := (if fec = FecMode.rs then
      (rxBaseSpec hw s3 port spd + pmdAdjSpec hw s3 port spd fec) % 2 ^ 64
    else
      (rxBaseSpec hw s3 port spd +
        (2 ^ 64 - pmdAdjSpec hw s3 port spd fec % 2 ^ 64)) % 2 ^ 64) with hWdef
  have hstep3 : (rx_total_mid hw port (spd, fec) >>= fun total =>
      ice_write_64b_phy_reg_e822 hw port
        PhyReg.totalRxOffsetL PhyReg.totalRxOffsetU total >>= fun _ =>
      sbWrite hw port PhyReg.rxOr 1) s3 =
      (ice_write_64b_phy_reg_e822 hw port
        PhyReg.totalRxOffsetL PhyReg.totalRxOffsetU W >>= fun _ =>
      sbWrite hw port PhyReg.rxOr 1) sm := by
    rw [bind_def, hm]
  have htail : (ice_write_64b_phy_reg_e822 hw port
      PhyReg.totalRxOffsetL PhyReg.totalRxOffsetU W >>= fun _ =>
      sbWrite hw port PhyReg.rxOr 1) sm =
      (Except.ok (), { sm with
        tr := sm.tr ++ [Ev.wrPhy port PhyReg.totalRxOffsetL (lo32 W)] ++
          [Ev.wrPhy port PhyReg.totalRxOffsetU (hi32 W)] ++
          [Ev.wrPhy port PhyReg.rxOr 1]
        regs := fun p r => if p = port ∧ r = PhyReg.rxOr then some 1 else
          (fun p r => if p = port ∧ r = PhyReg.totalRxOffsetU
              then some (hi32 W) else
            (fun p r => if p = port ∧ r = PhyReg.totalRxOffsetL
                then some (lo32 W) else sm.regs p r) p r) p r
        n := sm.n + 1 + 1 + 1 }) := by
    show (((sbWrite hw port PhyReg.totalRxOffsetL (lo32 W)) >>= fun _ =>
      sbWrite hw port PhyReg.totalRxOffsetU (hi32 W)) >>= fun _ =>
      sbWrite hw port PhyReg.rxOr 1) sm = _
    rw [bind_def, bind_def, sbWrite_ok (hff _)]
    simp only []
    rw [sbWrite_ok (hff _)]
    simp only []
    rw [sbWrite_ok (hff _)]
  rw [runM, hstep, hstep2, hstep3, htail]
  refine ⟨rfl, ?_, ?_, ?_⟩
  · simp only [regVal]
    simp
    rfl
  · simp only [regVal]
    simp
    rfl
  · simp only [regVal]
    simp

/-- Witness for C9 at a concrete input: the 10 GbE no-FEC fixture device. -/
theorem C9_witness :
    (regVal hwC4 {} 0 PhyReg.rxOr = 0 ∧
      ¬ regVal hwC4 {} 0 PhyReg.rxOvStatus &&& hwC4.rxOvMask = 0 ∧
      decodeSpdFec hwC4 (regVal hwC4 {} 0 PhyReg.linkSpeed) =
        some (LinkSpd.s10G, FecMode.noFec)) ∧
    ((runM (ice_phy_cfg_rx_offset_e822 hwC4 0) {}).1 = Except.ok () ∧
      regVal hwC4 (runM (ice_phy_cfg_rx_offset_e822 hwC4 0) {}).2 0
          PhyReg.totalRxOffsetL =
        lo32 (if FecMode.noFec = FecMode.rs then
            (rxBaseSpec hwC4 {} 0 LinkSpd.s10G +
              pmdAdjSpec hwC4 {} 0 LinkSpd.s10G FecMode.noFec) % 2 ^ 64
          else
            (rxBaseSpec hwC4 {} 0 LinkSpd.s10G +
              (2 ^ 64 - pmdAdjSpec hwC4 {} 0 LinkSpd.s10G FecMode.noFec % 2 ^ 64)) %
              2 ^ 64) ∧
      regVal hwC4 (runM (ice_phy_cfg_rx_offset_e822 hwC4 0) {}).2 0
          PhyReg.totalRxOffsetU =
        hi32 (if FecMode.noFec = FecMode.rs then
            (rxBaseSpec hwC4 {} 0 LinkSpd.s10G +
              pmdAdjSpec hwC4 {} 0 LinkSpd.s10G FecMode.noFec) % 2 ^ 64
          else
            (rxBaseSpec hwC4 {} 0 LinkSpd.s10G +
              (2 ^ 64 - pmdAdjSpec hwC4 {} 0 LinkSpd.s10G FecMode.noFec % 2 ^ 64)) %
              2 ^ 64) ∧
      regVal hwC4 (runM (ice_phy_cfg_rx_offset_e822 hwC4 0) {}).2 0 PhyReg.rxOr = 1) :=
  ⟨⟨by decide, by decide, by decide⟩,
    C9_rx_offset_pmd_sign hwC4 0 {} LinkSpd.s10G FecMode.noFec (fun _ => rfl)
      (by decide) (by decide) (by decide)⟩

/-! ## Claim C7: the global hardware semaphore -/

/-- The poll loop of `ice_ptp_lock` with the remaining number of tries
(`MAX_TRIES - i`): read the `PFTSYN_SEM` busy bit; if clear the lock was
acquired, otherwise sleep `usleep_range(5000, 6000)` and retry. -/
def ice_ptp_lock_go (hw : Hw) : Nat → M Bool
  | 0 => pure false
  | n + 1 => do
    let busy ← semRd hw
    if busy then do
      sleepRangeM 5000 6000
      ice_ptp_lock_go hw n
    else pure true

/-- `ice_ptp_lock`: poll the semaphore at most `MAX_TRIES = 15` times. -/
def ice_ptp_lock (hw : Hw) : M Bool := ice_ptp_lock_go hw 15

/-- `ice_ptp_unlock`: release the semaphore with a single zero write. -/
def ice_ptp_unlock : M Unit := emit (Ev.wrSem 0)

/-- `ice_write_40b_phy_reg_eth56g`: split a 40-bit value into the lower 8
bits (low register) and the upper 32 bits (high register). -/
def ice_write_40b_phy_reg_eth56g (hw : Hw) (port : Nat) (loReg hiReg : PhyReg)
    (val : Nat) : M Unit := do
  sbWrite hw port loReg (val &&& 0xFF)
  sbWrite hw port hiReg (lo32 (val >>> 8))

/-- `ice_write_40b_phy_reg_e822`: identical 8/32 split on the E822 pair. -/
def ice_write_40b_phy_reg_e822 (hw : Hw) (port : Nat) (loReg hiReg : PhyReg)
    (val : Nat) : M Unit := do
  sbWrite hw port loReg (val &&& 0xFF)
  sbWrite hw port hiReg (lo32 (val >>> 8))

/-- `ice_ptp_prep_phy_incval_eth56g`: program each port's TIMETUS pair. -/
def ice_ptp_prep_phy_incval_eth56g (hw : Hw) (incval : Nat) : M Unit :=
  forPorts (fun port =>
    ice_write_40b_phy_reg_eth56g hw port PhyReg.timetusL PhyReg.timetusU incval)
    0 hw.maxPhyPort

/-- `ice_ptp_prep_phy_incval_e810`: program the external PHY's
`ETH_GLTSYN_SHADJ_L/H` pair for the owned timer index. -/
def ice_ptp_prep_phy_incval_e810 (hw : Hw) (incval : Nat) : M Unit := do
  sbWrite hw 0 (PhyReg.ethShadjL hw.tmrIdxOwned) (lo32 incval)
  sbWrite hw 0 (PhyReg.ethShadjH hw.tmrIdxOwned) (hi32 incval)

/-- `ice_ptp_prep_phy_incval_e822`: program each port's TIMETUS pair. -/
def ice_ptp_prep_phy_incval_e822 (hw : Hw) (incval : Nat) : M Unit :=
  forPorts (fun port =>
    ice_write_40b_phy_reg_e822 hw port PhyReg.timetusL PhyReg.timetusU incval)
    0 hw.phyPorts

/-- Step 1 of `ice_ptp_write_incval`: the `if (wr_main_tmr)` block staging
the increment value into the source timer's `GLTSYN_SHADJ_L/H` pair. -/
def ice_ptp_write_incval_main (hw : Hw) (incval : Nat) (wr_main_tmr : Bool) :
    M Unit :=
  if wr_main_tmr then do
    mmioWr (MmioReg.shadjL hw.tmrIdxOwned) (lo32 incval)
    mmioWr (MmioReg.shadjH hw.tmrIdxOwned) (hi32 incval)
  else pure ()

/-- Step 2 of `ice_ptp_write_incval`: the `switch (hw->phy_model)` staging
the increment value into the PHY (`-EOPNOTSUPP` for unknown models). -/
def ice_ptp_write_incval_prep (hw : Hw) (incval : Nat) : M Unit :=
  match hw.phyModel with
  | PhyModel.eth56g => ice_ptp_prep_phy_incval_eth56g hw incval
  | PhyModel.e810 => ice_ptp_prep_phy_incval_e810 hw incval
  | PhyModel.e822 => ice_ptp_prep_phy_incval_e822 hw incval
  | PhyModel.unsup => throwM (-95)

/-- `ice_ptp_write_incval`: stage the new increment value into the source
timer shadow registers (when `wr_main_tmr`), stage it into every PHY port,
then run the `ICE_PTP_INIT_INCVAL` commit. -/
def ice_ptp_write_incval (hw : Hw) (incval : Nat) (wr_main_tmr : Bool) : M Unit := do
  ice_ptp_write_incval_main hw incval wr_main_tmr
  ice_ptp_write_incval_prep hw incval
  ice_ptp_tmr_cmd hw TmrCmd.initIncval true

/-- `ice_ptp_write_incval_locked`: acquire the global semaphore (fail with
`-EBUSY` if it never reads free), run `ice_ptp_write_incval`, release the
semaphore, and return the inner status. -/
def ice_ptp_write_incval_locked (hw : Hw) (incval : Nat) (wr_main_tmr : Bool) :
    M Unit := do
  let ok ← ice_ptp_lock hw
  if !ok then throwM (-16)
  else do
    let r ← attempt (ice_ptp_write_incval hw incval wr_main_tmr)
    ice_ptp_unlock
    liftE r

/-- `ice_ptp_read_port_capture_e822`: read the Tx and Rx capture pairs. -/
def ice_ptp_read_port_capture_e822 (hw : Hw) (port : Nat) : M (Nat × Nat) := do
  let tx ← ice_read_64b_phy_reg_e822 hw port PhyReg.txCaptureL PhyReg.txCaptureU
  let rx ← ice_read_64b_phy_reg_e822 hw port PhyReg.rxCaptureL PhyReg.rxCaptureU
  pure (tx, rx)

/-- `ice_read_phy_and_phc_time_e822`: issue a `ICE_PTP_READ_TIME` capture to
source and port, read the captured PHC time from the shadow time registers
(`rd32`, infallible) and the captured PHY time from the port capture pair;
returns `(phy_time, phc_time)`. -/
def ice_read_phy_and_phc_time_e822 (hw : Hw) (port : Nat) : M (Nat × Nat) := do
  ice_ptp_src_cmd hw TmrCmd.readTime
  ice_ptp_one_port_cmd_e822 hw port TmrCmd.readTime true
  ice_ptp_exec_tmr_cmd hw
  ice_ptp_clean_cmd
  let zo := hw.shtime0
  let lo := hw.shtimeL
  let phc_time := lo <<< 32 ||| zo
  let txrx ← ice_ptp_read_port_capture_e822 hw port
  pure (txrx.1, phc_time)

/-- `ice_ptp_prep_port_adj_e822`: stage a two's-complement adjustment into
the port's Tx then Rx `TIMER_INC_PRE` pairs. -/
def ice_ptp_prep_port_adj_e822 (hw : Hw) (port : Nat) (time : Int)
    (_lock_sbq : Bool) : M Unit := do
  let l_time := lo32 (u64ofInt time)
  let u_time := hi32 (u64ofInt time)
  sbWrite hw port PhyReg.txTimerIncPreL l_time
  sbWrite hw port PhyReg.txTimerIncPreU u_time
  sbWrite hw port PhyReg.rxTimerIncPreL l_time
  sbWrite hw port PhyReg.rxTimerIncPreU u_time

/-- The section of `ice_sync_phy_timer_e822` between the successful lock
acquisition and the `err_unlock` label: capture PHC and PHY time, stage
`phc_time - phy_time` as a port adjustment, issue the ADJ command and the
sync pulse, re-read to verify; the first failing step jumps to
`err_unlock`. -/
def ice_sync_phy_timer_e822_body (hw : Hw) (port : Nat) : M Unit := do
  let pp ← ice_read_phy_and_phc_time_e822 hw port
  let difference : Int := (pp.2 : Int) - (pp.1 : Int)
  ice_ptp_prep_port_adj_e822 hw port difference true
  ice_ptp_one_port_cmd_e822 hw port TmrCmd.adjTime true
  ice_ptp_src_cmd hw TmrCmd.readTime
  ice_ptp_exec_tmr_cmd hw
  ice_ptp_clean_cmd
  let _ ← ice_read_phy_and_phc_time_e822 hw port
  pure ()

/-- `ice_sync_phy_timer_e822`: acquire the semaphore (else `-EBUSY`), run the
body, and release the semaphore on every path (the `err_unlock` label of the
source). -/
def ice_sync_phy_timer_e822 (hw : Hw) (port : Nat) : M Unit := do
  let ok ← ice_ptp_lock hw
  if !ok then throwM (-16)
  else do
    let r ← attempt (ice_sync_phy_timer_e822_body hw port)
    ice_ptp_unlock
    liftE r

/-- Reads of the `PFTSYN_SEM` busy bit. -/
def isRdSem : Ev → Bool
  | Ev.rdSem => true
  | _ => false

/-- Writes of `PFTSYN_SEM` (semaphore releases). -/
def isWrSem : Ev → Bool
  | Ev.wrSem _ => true
  | _ => false

/-- Events the lock-acquisition loop may produce: semaphore reads and
`usleep_range(5000, 6000)` waits.  In particular no register mutation. -/
def isLockEv : Ev → Bool
  | Ev.rdSem => true
  | Ev.sleepRange lo hi => lo == 5000 && hi == 6000
  | _ => false

/-- Everything except a semaphore release. -/
def noWrSemEv (e : Ev) : Bool := !(isWrSem e)

theorem emitsOnly_mono {α : Type} {x : M α} {P Q : Ev → Bool}
    (h : ∀ e, P e = true → Q e = true) (hx : EmitsOnly x P) : EmitsOnly x Q := by
  intro s r s' hr
  obtain ⟨δ, h1, h2⟩ := hx s r s' hr
  exact ⟨δ, h1, fun e he => h e (h2 e he)⟩

theorem stagingEv_noWrSem : ∀ e, stagingEv e = true → noWrSemEv e = true := by
  intro e he
  cases e <;> first | rfl | exact Bool.noConfusion he

theorem lockEv_not_wrSem : ∀ e, isLockEv e = true → isWrSem e = false := by
  intro e he
  cases e <;> first | rfl | exact Bool.noConfusion he

/-- One unrolling of the poll loop when the busy bit reads set: record the
read and the sleep, bump the read counter, retry. -/
theorem lock_go_succ_busy (hw : Hw) (m : Nat) (s : S)
    (hb : hw.semBusy s.k = true) :
    ice_ptp_lock_go hw (m + 1) s =
      ice_ptp_lock_go hw m
        { s with tr := s.tr ++ [Ev.rdSem] ++ [Ev.sleepRange 5000 6000]
                 k := s.k + 1 } := by
  simp only [ice_ptp_lock_go]
  rw [bind_def]
  simp only [semRd]
  rw [hb]
  simp only []
  rw [if_pos trivial, bind_def]
  simp only [sleepRangeM, emit]

/-- One unrolling of the poll loop when the busy bit reads clear: the lock
is acquired after recording just the read. -/
theorem lock_go_succ_free (hw : Hw) (m : Nat) (s : S)
    (hb : hw.semBusy s.k = false) :
    ice_ptp_lock_go hw (m + 1) s =
      (Except.ok true, { s with tr := s.tr ++ [Ev.rdSem], k := s.k + 1 }) := by
  simp only [ice_ptp_lock_go]
  rw [bind_def]
  simp only [semRd]
  rw [hb]
  rw [if_neg Bool.false_ne_true]
  rfl

/-- Whatever the semaphore oracle does, a run of the poll loop with fuel `n`
appends only lock events, among them at most `n` semaphore reads. -/
theorem lock_go_trace (hw : Hw) :
    ∀ n s, ∃ δ, (ice_ptp_lock_go hw n s).2.tr = s.tr ++ δ ∧
      (∀ e ∈ δ, isLockEv e = true) ∧ δ.countP isRdSem ≤ n := by
  intro n
  induction n with
  | zero =>
      intro s
      exact ⟨[], by simp [ice_ptp_lock_go, pure_def], by simp, by simp⟩
  | succ m ih =>
      intro s
      cases hb : hw.semBusy s.k with
      | false =>
          rw [lock_go_succ_free hw m s hb]
          refine ⟨[Ev.rdSem], rfl, ?_, ?_⟩
          · intro e he
            simp only [List.mem_singleton] at he
            subst he
            rfl
          · have h1 : List.countP isRdSem [Ev.rdSem] = 1 := rfl
            omega
      | true =>
          rw [lock_go_succ_busy hw m s hb]
          obtain ⟨δ, h1, h2, h3⟩ := ih
            { s with tr := s.tr ++ [Ev.rdSem] ++ [Ev.sleepRange 5000 6000]
                     k := s.k + 1 }
          refine ⟨Ev.rdSem :: Ev.sleepRange 5000 6000 :: δ, ?_, ?_, ?_⟩
          · rw [h1]
            simp
          · intro e he
            simp only [List.mem_cons] at he
            rcases he with rfl | rfl | he
            · rfl
            · decide
            · exact h2 e he
          · simp [List.countP_cons, isRdSem]
            omega

/-- If the busy bit reads set on all `n` polls, the loop returns `false`. -/
theorem lock_go_all_busy (hw : Hw) :
    ∀ n s, (∀ i, i < n → hw.semBusy (s.k + i) = true) →
      (ice_ptp_lock_go hw n s).1 = Except.ok false := by
  intro n
  induction n with
  | zero => intro s _; rfl
  | succ m ih =>
      intro s h
      have hb : hw.semBusy s.k = true := by simpa using h 0 (Nat.succ_pos m)
      rw [lock_go_succ_busy hw m s hb]
      refine ih _ ?_
      intro i hi
      have h2 := h (i + 1) (by omega)
      show hw.semBusy (s.k + 1 + i) = true
      have he : s.k + 1 + i = s.k + (i + 1) := by omega
      rw [he]
      exact h2

/-- If some poll among the first `n` reads the busy bit clear, the loop
returns `true` (the lock is acquired). -/
theorem lock_go_acquire (hw : Hw) :
    ∀ n s, (∃ i, i < n ∧ hw.semBusy (s.k + i) = false) →
      (ice_ptp_lock_go hw n s).1 = Except.ok true := by
  intro n
  induction n with
  | zero =>
      intro s h
      obtain ⟨i, hi, _⟩ := h
      exact absurd hi (by omega)
  | succ m ih =>
      intro s h
      cases hb : hw.semBusy s.k with
      | false =>
          rw [lock_go_succ_free hw m s hb]
      | true =>
          obtain ⟨i, hi, hbi⟩ := h
          rcases i with _ | j
          · rw [Nat.add_zero] at hbi
            rw [hb] at hbi
            exact Bool.noConfusion hbi
          · rw [lock_go_succ_busy hw m s hb]
            refine ih _ ⟨j, by omega, ?_⟩
            show hw.semBusy (s.k + 1 + j) = false
            have he : s.k + 1 + j = s.k + (j + 1) := by omega
            rw [he]
            exact hbi

theorem emitsOnly_nws_w40_eth56g (hw : Hw) (port : Nat) (lo hi : PhyReg)
    (val : Nat) :
    EmitsOnly (ice_write_40b_phy_reg_eth56g hw port lo hi val) noWrSemEv :=
  emitsOnly_bind (emitsOnly_sbWrite _ _ _ _ rfl) fun _ =>
    emitsOnly_sbWrite _ _ _ _ rfl

theorem emitsOnly_nws_w40_e822 (hw : Hw) (port : Nat) (lo hi : PhyReg)
    (val : Nat) :
    EmitsOnly (ice_write_40b_phy_reg_e822 hw port lo hi val) noWrSemEv :=
  emitsOnly_bind (emitsOnly_sbWrite _ _ _ _ rfl) fun _ =>
    emitsOnly_sbWrite _ _ _ _ rfl

theorem emitsOnly_nws_prep_incval_eth56g (hw : Hw) (incval : Nat) :
    EmitsOnly (ice_ptp_prep_phy_incval_eth56g hw incval) noWrSemEv :=
  emitsOnly_forPorts (fun p => emitsOnly_nws_w40_eth56g hw p _ _ _) _ _

theorem emitsOnly_nws_prep_incval_e810 (hw : Hw) (incval : Nat) :
    EmitsOnly (ice_ptp_prep_phy_incval_e810 hw incval) noWrSemEv :=
  emitsOnly_bind (emitsOnly_sbWrite _ _ _ _ rfl) fun _ =>
    emitsOnly_sbWrite _ _ _ _ rfl

theorem emitsOnly_nws_prep_incval_e822 (hw : Hw) (incval : Nat) :
    EmitsOnly (ice_ptp_prep_phy_incval_e822 hw incval) noWrSemEv :=
  emitsOnly_forPorts (fun p => emitsOnly_nws_w40_e822 hw p _ _ _) _ _

theorem emitsOnly_nws_tmr_cmd (hw : Hw) (cmd : TmrCmd) (lk : Bool) :
    EmitsOnly (ice_ptp_tmr_cmd hw cmd lk) noWrSemEv := by
  unfold ice_ptp_tmr_cmd ice_ptp_src_cmd ice_ptp_exec_tmr_cmd
    ice_ptp_clean_cmd mmioWr
  exact emitsOnly_bind (emitsOnly_emit rfl) fun _ =>
    emitsOnly_bind
      (emitsOnly_mono stagingEv_noWrSem (emitsOnly_tmr_cmd_ports hw cmd lk))
      fun _ =>
    emitsOnly_bind (emitsOnly_emit rfl) fun _ => emitsOnly_emit rfl

/-- `ice_ptp_write_incval` never touches the semaphore register. -/
theorem emitsOnly_nws_write_incval (hw : Hw) (incval : Nat) (wr : Bool) :
    EmitsOnly (ice_ptp_write_incval hw incval wr) noWrSemEv := by
  unfold ice_ptp_write_incval
  refine emitsOnly_bind ?_ fun _ => ?_
  · unfold ice_ptp_write_incval_main mmioWr
    exact emitsOnly_ite
      (emitsOnly_bind (emitsOnly_emit rfl) fun _ => emitsOnly_emit rfl)
      (emitsOnly_pure _ _)
  · refine emitsOnly_bind ?_ fun _ => emitsOnly_nws_tmr_cmd hw _ _
    unfold ice_ptp_write_incval_prep
    cases hw.phyModel
    · exact emitsOnly_nws_prep_incval_eth56g hw incval
    · exact emitsOnly_nws_prep_incval_e810 hw incval
    · exact emitsOnly_nws_prep_incval_e822 hw incval
    · exact emitsOnly_throwM _ _

theorem emitsOnly_nws_read64 (hw : Hw) (port : Nat) (lo hi : PhyReg) :
    EmitsOnly (ice_read_64b_phy_reg_e822 hw port lo hi) noWrSemEv :=
  emitsOnly_bind (emitsOnly_sbRead _ _ _ rfl) fun _ =>
    emitsOnly_bind (emitsOnly_sbRead _ _ _ rfl) fun _ => emitsOnly_pure _ _

theorem emitsOnly_nws_capture (hw : Hw) (port : Nat) :
    EmitsOnly (ice_ptp_read_port_capture_e822 hw port) noWrSemEv :=
  emitsOnly_bind (emitsOnly_nws_read64 hw port _ _) fun _ =>
    emitsOnly_bind (emitsOnly_nws_read64 hw port _ _) fun _ =>
      emitsOnly_pure _ _

theorem emitsOnly_nws_read_phy_phc (hw : Hw) (port : Nat) :
    EmitsOnly (ice_read_phy_and_phc_time_e822 hw port) noWrSemEv := by
  unfold ice_read_phy_and_phc_time_e822 ice_ptp_src_cmd ice_ptp_exec_tmr_cmd
    ice_ptp_clean_cmd mmioWr
  exact emitsOnly_bind (emitsOnly_emit rfl) fun _ =>
    emitsOnly_bind
      (emitsOnly_one_port_cmd_e822 hw port _ _ (fun _ => rfl) (fun _ _ => rfl))
      fun _ =>
    emitsOnly_bind (emitsOnly_emit rfl) fun _ =>
    emitsOnly_bind (emitsOnly_emit rfl) fun _ =>
    emitsOnly_bind (emitsOnly_nws_capture hw port) fun _ =>
    emitsOnly_pure _ _

theorem emitsOnly_nws_prep_port_adj (hw : Hw) (port : Nat) (t : Int)
    (lk : Bool) :
    EmitsOnly (ice_ptp_prep_port_adj_e822 hw port t lk) noWrSemEv :=
  emitsOnly_bind (emitsOnly_sbWrite _ _ _ _ rfl) fun _ =>
    emitsOnly_bind (emitsOnly_sbWrite _ _ _ _ rfl) fun _ =>
    emitsOnly_bind (emitsOnly_sbWrite _ _ _ _ rfl) fun _ =>
    emitsOnly_sbWrite _ _ _ _ rfl

/-- The body of `ice_sync_phy_timer_e822` never touches the semaphore
register. -/
theorem emitsOnly_nws_sync_body (hw : Hw) (port : Nat) :
    EmitsOnly (ice_sync_phy_timer_e822_body hw port) noWrSemEv := by
  unfold ice_sync_phy_timer_e822_body ice_ptp_src_cmd ice_ptp_exec_tmr_cmd
    ice_ptp_clean_cmd mmioWr
  exact emitsOnly_bind (emitsOnly_nws_read_phy_phc hw port) fun _ =>
    emitsOnly_bind (emitsOnly_nws_prep_port_adj hw port _ _) fun _ =>
    emitsOnly_bind
      (emitsOnly_one_port_cmd_e822 hw port _ _ (fun _ => rfl) (fun _ _ => rfl))
      fun _ =>
    emitsOnly_bind (emitsOnly_emit rfl) fun _ =>
    emitsOnly_bind (emitsOnly_emit rfl) fun _ =>
    emitsOnly_bind (emitsOnly_emit rfl) fun _ =>
    emitsOnly_bind (emitsOnly_nws_read_phy_phc hw port) fun _ =>
    emitsOnly_pure _ _

/-- The shared "run the body, then unconditionally release and forward the
status" tail of the two lock-holding functions: whatever the body does, the
whole tail returns the body's status and appends exactly one semaphore
release after the body's events. -/
theorem locked_tail_run (x : M Unit) (s1 : S) (rb : Except Int Unit) (s2 : S)
    (hb : x s1 = (rb, s2)) :
    (attempt x >>= fun r => ice_ptp_unlock >>= fun _ => liftE r) s1
      = (rb, { s2 with tr := s2.tr ++ [Ev.wrSem 0] }) := by
  rw [bind_def]
  have hatt : attempt x s1 = (Except.ok rb, s2) := by
    unfold attempt
    rw [hb]
  rw [hatt]
  simp only []
  rw [bind_def]
  simp only [ice_ptp_unlock, emit]
  cases rb <;> rfl

/-- C7: `ice_ptp_lock` polls the global hardware semaphore at most 15 times,
emitting only semaphore reads and `usleep_range(5000, 6000)` waits, and
returns `false` when the busy bit never reads clear.  In that case both
semaphore-acquiring functions (`ice_ptp_write_incval_locked`,
`ice_sync_phy_timer_e822`) return `-EBUSY` with nothing staged: their whole
trace is still only polls and sleeps.  Once acquisition succeeds, each of
the two functions executes `ice_ptp_unlock` exactly once on every path,
error paths included: exactly one `PFTSYN_SEM` release write appears in the
call's trace, whatever the sideband fault oracle does to the body. -/
theorem C7_semaphore_discipline (hw : Hw) (incval : Nat) (wr : Bool)
    (port : Nat) (s : S) :
    (((runM (ice_ptp_lock hw) s).2.tr.drop s.tr.length).countP isRdSem ≤ 15 ∧
      ∀ e ∈ (runM (ice_ptp_lock hw) s).2.tr.drop s.tr.length,
        isLockEv e = true) ∧
    ((∀ i, i < 15 → hw.semBusy (s.k + i) = true) →
      (runM (ice_ptp_lock hw) s).1 = Except.ok false ∧
      (runM (ice_ptp_write_incval_locked hw incval wr) s).1
          = Except.error (-16) ∧
      (∀ e ∈ (runM (ice_ptp_write_incval_locked hw incval wr) s).2.tr.drop
          s.tr.length, isLockEv e = true) ∧
      (runM (ice_sync_phy_timer_e822 hw port) s).1 = Except.error (-16) ∧
      (∀ e ∈ (runM (ice_sync_phy_timer_e822 hw port) s).2.tr.drop
          s.tr.length, isLockEv e = true)) ∧
    ((∃ i, i < 15 ∧ hw.semBusy (s.k + i) = false) →
      ((runM (ice_ptp_write_incval_locked hw incval wr) s).2.tr.drop
          s.tr.length).countP isWrSem = 1 ∧
      ((runM (ice_sync_phy_timer_e822 hw port) s).2.tr.drop
          s.tr.length).countP isWrSem = 1) := by
  obtain ⟨δ1, hδ1, hP1, hc1⟩ := lock_go_trace hw 15 s
  refine ⟨⟨?_, ?_⟩, ?_, ?_⟩
  · show ((ice_ptp_lock_go hw 15 s).2.tr.drop s.tr.length).countP isRdSem ≤ 15
    rw [hδ1, List.drop_left]
    exact hc1
  · show ∀ e ∈ (ice_ptp_lock_go hw 15 s).2.tr.drop s.tr.length,
      isLockEv e = true
    rw [hδ1, List.drop_left]
    exact hP1
  · intro h
    have hlock : (ice_ptp_lock_go hw 15 s).1 = Except.ok false :=
      lock_go_all_busy hw 15 s h
    rcases hl : ice_ptp_lock hw s with ⟨rl, s1⟩
    have hl' : ice_ptp_lock_go hw 15 s = (rl, s1) := hl
    rw [hl'] at hlock
    have hrl : rl = Except.ok false := hlock
    subst hrl
    have hs1 : s1.tr = s.tr ++ δ1 := by rw [hl'] at hδ1; exact hδ1
    have hw1 : ice_ptp_write_incval_locked hw incval wr s
        = (Except.error (-16), s1) := by
      unfold ice_ptp_write_incval_locked
      rw [bind_def, hl]
      rfl
    have hw2 : ice_sync_phy_timer_e822 hw port s
        = (Except.error (-16), s1) := by
      unfold ice_sync_phy_timer_e822
      rw [bind_def, hl]
      rfl
    refine ⟨?_, ?_, ?_, ?_, ?_⟩
    · show (ice_ptp_lock hw s).1 = Except.ok false
      rw [hl]
    · show (ice_ptp_write_incval_locked hw incval wr s).1 = Except.error (-16)
      rw [hw1]
    · show ∀ e ∈ (ice_ptp_write_incval_locked hw incval wr s).2.tr.drop
        s.tr.length, isLockEv e = true
      rw [hw1]
      simp only []
      rw [hs1, List.drop_left]
      exact hP1
    · show (ice_sync_phy_timer_e822 hw port s).1 = Except.error (-16)
      rw [hw2]
    · show ∀ e ∈ (ice_sync_phy_timer_e822 hw port s).2.tr.drop
        s.tr.length, isLockEv e = true
      rw [hw2]
      simp only []
      rw [hs1, List.drop_left]
      exact hP1
  · intro h
    have hlock : (ice_ptp_lock_go hw 15 s).1 = Except.ok true :=
      lock_go_acquire hw 15 s h
    rcases hl : ice_ptp_lock hw s with ⟨rl, s1⟩
    have hl' : ice_ptp_lock_go hw 15 s = (rl, s1) := hl
    rw [hl'] at hlock
    have hrl : rl = Except.ok true := hlock
    subst hrl
    have hs1 : s1.tr = s.tr ++ δ1 := by rw [hl'] at hδ1; exact hδ1
    have z1 : δ1.countP isWrSem = 0 := by
      rw [List.countP_eq_zero]
      intro e he hc
      rw [lockEv_not_wrSem e (hP1 e he)] at hc
      exact Bool.noConfusion hc
    constructor
    · rcases hbdy : ice_ptp_write_incval hw incval wr s1 with ⟨rb, s2⟩
      obtain ⟨δ2, hδ2, hP2⟩ :=
        emitsOnly_nws_write_incval hw incval wr s1 rb s2 hbdy
      have hrun : ice_ptp_write_incval_locked hw incval wr s
          = (rb, { s2 with tr := s2.tr ++ [Ev.wrSem 0] }) := by
        unfold ice_ptp_write_incval_locked
        rw [bind_def, hl]
        simp only [Bool.not_true]
        rw [if_neg Bool.false_ne_true]
        exact locked_tail_run _ s1 rb s2 hbdy
      have z2 : δ2.countP isWrSem = 0 := by
        rw [List.countP_eq_zero]
        intro e he hc
        have h2 := hP2 e he
        rw [noWrSemEv, hc] at h2
        exact Bool.noConfusion h2
      have htr : (ice_ptp_write_incval_locked hw incval wr s).2.tr
          = s.tr ++ (δ1 ++ (δ2 ++ [Ev.wrSem 0])) := by
        rw [hrun]
        simp only []
        rw [hδ2, hs1]
        simp [List.append_assoc]
      show ((ice_ptp_write_incval_locked hw incval wr s).2.tr.drop
        s.tr.length).countP isWrSem = 1
      rw [htr, List.drop_left, List.countP_append, List.countP_append, z1, z2]
      rfl
    · rcases hbdy : ice_sync_phy_timer_e822_body hw port s1 with ⟨rb, s2⟩
      obtain ⟨δ2, hδ2, hP2⟩ := emitsOnly_nws_sync_body hw port s1 rb s2 hbdy
      have hrun : ice_sync_phy_timer_e822 hw port s
          = (rb, { s2 with tr := s2.tr ++ [Ev.wrSem 0] }) := by
        unfold ice_sync_phy_timer_e822
        rw [bind_def, hl]
        simp only [Bool.not_true]
        rw [if_neg Bool.false_ne_true]
        exact locked_tail_run _ s1 rb s2 hbdy
      have z2 : δ2.countP isWrSem = 0 := by
        rw [List.countP_eq_zero]
        intro e he hc
        have h2 := hP2 e he
        rw [noWrSemEv, hc] at h2
        exact Bool.noConfusion h2
      have htr : (ice_sync_phy_timer_e822 hw port s).2.tr
          = s.tr ++ (δ1 ++ (δ2 ++ [Ev.wrSem 0])) := by
        rw [hrun]
        simp only []
        rw [hδ2, hs1]
        simp [List.append_assoc]
      show ((ice_sync_phy_timer_e822 hw port s).2.tr.drop
        s.tr.length).countP isWrSem = 1
      rw [htr, List.drop_left, List.countP_append, List.countP_append, z1, z2]
      rfl

/-- A device whose semaphore busy bit never clears. -/
def hwC7busy : Hw := { phyModel := PhyModel.e822, semBusy := fun _ => true }

/-- A healthy E822 device whose semaphore is free. -/
def hwC7free : Hw := { phyModel := PhyModel.e822, phyPorts := 1 }

/-- Witness for C7 at concrete inputs: with the semaphore stuck busy both
locked functions fail with `-EBUSY`; with it free both runs contain exactly
one semaphore release. -/
theorem C7_witness :
    (runM (ice_ptp_write_incval_locked hwC7busy 5 true) {}).1
        = Except.error (-16) ∧
    (runM (ice_sync_phy_timer_e822 hwC7busy 0) {}).1 = Except.error (-16) ∧
    ((runM (ice_ptp_write_incval_locked hwC7free 5 true) {}).2.tr.drop
      (S.tr {}).length).countP isWrSem = 1 ∧
    ((runM (ice_sync_phy_timer_e822 hwC7free 0) {}).2.tr.drop
      (S.tr {}).length).countP isWrSem = 1 :=
  ⟨((C7_semaphore_discipline hwC7busy 5 true 0 {}).2.1 (fun _ _ => rfl)).2.1,
   ((C7_semaphore_discipline hwC7busy 5 true 0 {}).2.1
     (fun _ _ => rfl)).2.2.2.1,
   ((C7_semaphore_discipline hwC7free 5 true 0 {}).2.2
     ⟨0, by omega, rfl⟩).1,
   ((C7_semaphore_discipline hwC7free 5 true 0 {}).2.2
     ⟨0, by omega, rfl⟩).2⟩

end IcePtp
